import Mathlib

/-!
Verification development for the student-sync service: a shallow embedding of
the synchronization engine (field mapping, conflict detection, safe updates,
the student sync loop, cache manager, token manager, conflict resolution and
date formatting) together with theorems about its behaviour.

Source files embedded here: `backend/sync_service.py`, `backend/cache_manager.py`,
`backend/feishu_client.py`.
-/

namespace NvcSync

/-! ## Python string primitives

`str.strip()` removes leading and trailing whitespace; we model the ASCII
whitespace characters Python strips. `str.lower()` is modelled per character.
-/

/-- Whitespace characters removed by Python `str.strip()` (ASCII subset). -/
def pyIsSpace (c : Char) : Bool :=
  c == ' ' || c == '\t' || c == '\n' || c == '\r' || c == '\x0b' || c == '\x0c'

/-- Core of `str.strip()`: drop whitespace from both ends of a char list. -/
def pyStripList (cs : List Char) : List Char :=
  ((cs.dropWhile pyIsSpace).reverse.dropWhile pyIsSpace).reverse

/-- Python `s.strip()`. -/
def pyStrip (s : String) : String := String.mk (pyStripList s.data)

/-- Python `s.lower()` (ASCII letters, which covers the sentinels used). -/
def pyLower (s : String) : String := String.mk (s.data.map Char.toLower)

/-! ## Field values

Record fields in the bitable hold scalar values; the sync code produces either
strings or integers (the `年龄` branch produces `int`). `pyStr` is Python
`str(value)` and `pyTruthy` is Python truthiness for these scalars.
-/

/-- A scalar field value: string or integer. -/
inductive FVal where
  | str : String → FVal
  | int : Int → FVal
deriving DecidableEq, Repr

/-- Python `str(v)` for a scalar value. -/
def pyStr : FVal → String
  | .str s => s
  | .int n => toString n

/-- Python truthiness of a scalar value (`if value:`). -/
def pyTruthy : FVal → Bool
  | .str s => s ≠ ""
  | .int n => n ≠ 0

/-- Python truthiness of `dict.get(k)` (`None` is falsy). -/
def optTruthy : Option FVal → Bool
  | none => false
  | some v => pyTruthy v

/-! ## Ordered string-keyed dictionaries

Python dicts preserve insertion order; assignment to an existing key replaces
the value in place, assignment to a new key appends. We model them as ordered
association lists.
-/

/-- `d.get(k)`: first binding of `k`, if any. -/
def alistGet {α : Type} (d : List (String × α)) (k : String) : Option α :=
  match d with
  | [] => none
  | (k', v) :: rest => if k' = k then some v else alistGet rest k

/-- `k in d`. -/
def alistHas {α : Type} (d : List (String × α)) (k : String) : Bool :=
  (alistGet d k).isSome

/-- `d[k] = v`: replace in place if present, append otherwise. -/
def alistSet {α : Type} (d : List (String × α)) (k : String) (v : α) : List (String × α) :=
  if alistHas d k then d.map (fun p => if p.1 = k then (k, v) else p)
  else d ++ [(k, v)]

/-- `d.update(u)`: fold the bindings of `u` into `d` left to right. -/
def alistUpdate {α : Type} (d u : List (String × α)) : List (String × α) :=
  u.foldl (fun acc p => alistSet acc p.1 p.2) d

/-- The keys of an association list. -/
def alistKeys {α : Type} (d : List (String × α)) : List String :=
  d.map Prod.fst

/-- A record's field map: feishu field name to scalar value. -/
abbrev Fields := List (String × FVal)

/-- A remote record: opaque record id plus its field map
(`{"record_id": ..., "fields": ...}`). -/
structure Record where
  record_id : String
  fields : Fields
deriving DecidableEq, Repr

/-! ## FieldMappingService (`sync_service.py` lines 14-170)

`FieldConflict` mirrors the Python class; `map_csv_fields_to_feishu` maps CSV
columns to feishu fields with per-field coercion; `detect_conflicts` compares
candidate values against an existing record.

The Python service object accumulates `conflicts` / `skipped_fields` /
`updated_fields` across calls by appending; we model each call as a pure
function returning the appended deltas, and the callers accumulate them.
-/

/-- `FieldConflict.__init__`; `nickname or user_id` makes an empty nickname
fall back to the user id. -/
structure FieldConflict where
  field_name : String
  existing_value : FVal
  new_value : FVal
  user_id : String
  nickname : String
deriving DecidableEq, Repr

/-- Constructor applying the `nickname or user_id` fallback. -/
def mkFieldConflict (f : String) (ex nv : FVal) (uid nick : String) : FieldConflict :=
  ⟨f, ex, nv, uid, if nick = "" then uid else nick⟩

/-- `FieldMappingService.DEFAULT_FIELD_MAPPING`. -/
def DEFAULT_FIELD_MAPPING : List (String × String) :=
  [("用户ID", "用户ID"), ("昵称", "昵称"), ("手机号", "手机号"), ("姓名", "姓名"),
   ("城市", "城市"), ("城 市", "城市"), ("微信号", "微信号"), ("性别", "性别"),
   ("地址", "地址"), ("年龄", "年龄"), ("行业", "行业")]

/-- The core CSV columns excluded from the skipped-fields report
(line 133: `elif csv_field not in [...]`). -/
def coreCsvNames : List String :=
  ["user_id", "nickname", "phone", "course", "learning_date"]

/-- `cleaned_value.lower() in ['nan', 'null', 'none']`. -/
def isSentinel (s : String) : Bool :=
  pyLower s == "nan" || pyLower s == "null" || pyLower s == "none"

/-- `''.join(filter(str.isdigit, s))`. -/
def stripDigits (s : String) : String := String.mk (s.data.filter Char.isDigit)

/-- The `logger.warning` text for an implausible phone-digit count
(lines 122-123 and 523-524). -/
def phoneLenWarn (d : String) : String :=
  "手机号长度异常: " ++ d ++ " (长度: " ++ toString d.length ++ ")"

/-- Python `int(float(s))` for plain decimal literals
(optional sign, digits, optional fraction, optional exponent), truncating
toward zero; any other shape raises and is modelled as `none`. -/
def pyIntOfFloat (s : String) : Option Int :=
  let cs := s.data
  let (neg, cs) :=
    match cs with
    | '-' :: rest => (true, rest)
    | '+' :: rest => (false, rest)
    | _ => (false, cs)
  let ip := cs.takeWhile Char.isDigit
  let cs := cs.dropWhile Char.isDigit
  let (fp, cs) :=
    match cs with
    | '.' :: rest => (rest.takeWhile Char.isDigit, rest.dropWhile Char.isDigit)
    | _ => ([], cs)
  if ip.isEmpty ∧ fp.isEmpty then none
  else
    let digitsVal : List Char → Nat :=
      fun ds => ds.foldl (fun a c => a * 10 + (c.toNat - '0'.toNat)) 0
    let readExp : List Char → Option Int :=
      fun rest =>
        match rest with
        | [] => some 0
        | 'e' :: t | 'E' :: t =>
          let (eneg, t) :=
            match t with
            | '-' :: t2 => (true, t2)
            | '+' :: t2 => (false, t2)
            | _ => (false, t)
          let ed := t.takeWhile Char.isDigit
          if ed.isEmpty ∨ ¬(t.dropWhile Char.isDigit).isEmpty then none
          else some (if eneg then -(digitsVal ed : Int) else (digitsVal ed : Int))
        | _ => none
    match readExp cs with
    | none => none
    | some e =>
      let n := digitsVal (ip ++ fp)
      let k := fp.length
      let shift := e - (k : Int)
      let mag : Nat :=
        if 0 ≤ shift then n * 10 ^ shift.toNat
        else n / 10 ^ (-shift).toNat
      some (if neg then -(mag : Int) else (mag : Int))

/-- The per-call output of `map_csv_fields_to_feishu`: the mapped field dict
plus the entries appended to the service's `skipped_fields` and
`updated_fields`, and the `logger.warning` messages emitted. -/
structure MapDelta where
  mapped : Fields
  skipped : List String
  updated : List String
  logWarn : List String
deriving DecidableEq, Repr

/-- The empty delta. -/
def emptyMapDelta : MapDelta := ⟨[], [], [], []⟩

/-- Lines 88-132: the branch taken when `feishu_field` is truthy and present in
the table schema. `cleaned` is `str(value).strip()`. -/
def mapMatched (acc : MapDelta) (csvField value f : String) : MapDelta :=
  let cleaned := pyStrip value
  if cleaned == "" || isSentinel cleaned then
    { acc with skipped := acc.skipped ++ [csvField ++ " (空值)"] }
  else if f == "年龄" then
    if cleaned == "" || pyLower cleaned == "0" then
      { acc with skipped := acc.skipped ++ [csvField ++ " (年龄为空，跳过)"] }
    else
      match pyIntOfFloat cleaned with
      | none =>
        { acc with skipped := acc.skipped ++ [csvField ++ " (年龄格式错误: " ++ cleaned ++ ")"] }
      | some a =>
        if a < 1 || a > 120 then
          { acc with skipped := acc.skipped ++ [csvField ++ " (年龄超出范围: " ++ toString a ++ ")"] }
        else
          { acc with mapped := alistSet acc.mapped f (.int a),
                     updated := acc.updated ++ [csvField ++ " -> " ++ f] }
  else if f == "手机号" then
    let d := stripDigits cleaned
    if d == "" then
      { acc with skipped := acc.skipped ++ [csvField ++ " (手机号无数字: " ++ cleaned ++ ")"] }
    else
      { acc with mapped := alistSet acc.mapped f (.str d),
                 updated := acc.updated ++ [csvField ++ " -> " ++ f],
                 logWarn := acc.logWarn ++
                   (if d.length < 7 || d.length > 15 then [phoneLenWarn d] else []) }
  else
    { acc with mapped := alistSet acc.mapped f (.str cleaned),
               updated := acc.updated ++ [csvField ++ " -> " ++ f] }

/-- One iteration of the loop in `map_csv_fields_to_feishu` (lines 62-138).
CSV values reaching this method are strings (the CSV processor stringifies and
strips them), so `str(value)` is the value itself, `not value` is emptiness,
and the dotted-mapping fallback at lines 70-77 is unreachable (a string
containing a dot is truthy, so `not feishu_field` fails for it). -/
def mapFieldStep (mapping : List (String × String)) (names : List String)
    (acc : MapDelta) (kv : String × String) : MapDelta :=
  let csvField := kv.1
  let value := kv.2
  if value == "" || pyStrip value == "" then acc
  else
    match alistGet mapping csvField with
    | some f =>
      if f ≠ "" ∧ f ∈ names then mapMatched acc csvField value f
      else if csvField ∈ coreCsvNames then acc
      else if f ≠ "" then
        { acc with skipped := acc.skipped ++ [csvField ++ " (表格中无此字段: " ++ f ++ ")"] }
      else
        { acc with skipped := acc.skipped ++ [csvField ++ " (无映射规则)"] }
    | none =>
      if csvField ∈ coreCsvNames then acc
      else { acc with skipped := acc.skipped ++ [csvField ++ " (无映射规则)"] }

/-- `FieldMappingService.map_csv_fields_to_feishu` (lines 58-140) as a pure
function of the service's `field_mapping`, the table's field names and the
CSV row's fields. -/
def map_csv_fields_to_feishu (mapping : List (String × String)) (names : List String)
    (csv_fields : List (String × String)) : MapDelta :=
  csv_fields.foldl (mapFieldStep mapping names) emptyMapDelta

/-- The conflict test of `detect_conflicts` (lines 150-153): existing value
truthy, non-blank, and differing from the candidate after stripping. -/
def conflictHit (ew : Option FVal) (nv : FVal) : Bool :=
  match ew with
  | none => false
  | some w => pyTruthy w && pyStrip (pyStr w) ≠ "" && pyStrip (pyStr w) ≠ pyStrip (pyStr nv)

/-- `FieldMappingService.detect_conflicts` (lines 142-159): the conflicts found
for one record, in `new_fields` order (these are also appended to the
service's running `conflicts` list by the caller). -/
def detect_conflicts (new_fields : Fields) (existing_fields : Fields)
    (user_id nickname : String) : List FieldConflict :=
  new_fields.filterMap (fun p =>
    match alistGet existing_fields p.1 with
    | none => none
    | some w =>
      if pyTruthy w && pyStrip (pyStr w) ≠ "" && pyStrip (pyStr w) ≠ pyStrip (pyStr p.2) then
        some (mkFieldConflict p.1 w p.2 user_id nickname)
      else none)

/-! ## Update planning (`_update_student_if_needed`, lines 565-671)

The method maps the CSV fields, detects conflicts, and keeps as `safe_updates`
the non-conflicting fields whose existing value is empty. We expose this pure
core as `planUpdate`; the surrounding effects (remote update, cache
write-back, counters) live in the sync loop below.
-/

/-- Line 604: `if not existing_value or str(existing_value).strip() == ""`. -/
def isEmptyExisting (ew : Option FVal) : Bool :=
  match ew with
  | none => true
  | some w => !pyTruthy w || pyStrip (pyStr w) == ""

/-- Lines 597-605: the safe (written) subset of the candidate fields. -/
def safeUpdates (new_fields existing_fields : Fields)
    (conflicts : List FieldConflict) : Fields :=
  new_fields.filter (fun p =>
    !((conflicts.map FieldConflict.field_name).contains p.1) &&
      isEmptyExisting (alistGet existing_fields p.1))

/-- One validated unique student (`unique_students` entry built by the CSV
processor): natural key, display name, optional phone (empty string when
absent) and the raw CSV row retained as `csv_all_fields`. -/
structure StudentData where
  user_id : String
  nickname : String
  phone : String
  csv_all_fields : List (String × String)
deriving DecidableEq, Repr

/-- The decision part of `_update_student_if_needed`: candidate fields,
conflicts, safe updates and the field-mapping delta for one existing student.
Short-circuits (lines 580-589) when the CSV row is empty or maps to nothing. -/
structure UpdatePlan where
  new_fields : Fields
  conflicts : List FieldConflict
  safe : Fields
  delta : MapDelta
deriving DecidableEq, Repr

/-- Pure core of `_update_student_if_needed` for student `sd` against the
existing record. -/
def planUpdate (mapping : List (String × String)) (names : List String)
    (sd : StudentData) (existing : Record) : UpdatePlan :=
  if sd.csv_all_fields.isEmpty then ⟨[], [], [], emptyMapDelta⟩
  else
    let d := map_csv_fields_to_feishu mapping names sd.csv_all_fields
    if d.mapped.isEmpty then ⟨[], [], [], d⟩
    else
      let cs := detect_conflicts d.mapped existing.fields sd.user_id sd.nickname
      ⟨d.mapped, cs, safeUpdates d.mapped existing.fields cs, d⟩

/-- Join strings with a separator (Python `sep.join`). -/
def joinStr (sep : String) : List String → String
  | [] => ""
  | [s] => s
  | s :: rest => s ++ sep ++ joinStr sep rest

/-- Lines 658-665: the warning recorded when conflicts exist (and no safe
update was performed). -/
def conflictWarning (nickname : String) (cs : List FieldConflict) : String :=
  "学员" ++ nickname ++ "存在字段冲突，需要手动确认: " ++
    joinStr "; " (cs.map (fun c =>
      c.field_name ++ ": 现有值'" ++ pyStr c.existing_value ++ "' vs 新值'" ++
        pyStr c.new_value ++ "'"))

/-! ## The student sync loop (`_sync_students`, lines 334-406)

State threaded through one run: the student cache (`StudentCacheManager.cache`,
an insertion-ordered dict from user id to record), the remote student table,
counters and lists of the `SyncResult`, the accumulated field-mapping service
state, a fresh-id counter for records created by the remote store, and the
number of remote mutation requests issued.

Remote create/update calls can fail; the oracles `createOk` / `updOk` decide,
per user id, whether the remote store accepts the call (`False` models a
`FeishuAPIError` raised by the request, caught by the service).
-/

/-- The run state: `SyncResult` counters and lists, the cache, the remote
student table, and bookkeeping for record-id assignment and issued requests. -/
structure SyncOutcome where
  new_students : Nat
  updated_students : Nat
  processed_records : Nat
  errors : List String
  warnings : List String
  conflicts : List FieldConflict
  skipped_fields : List String
  updated_fields : List String
  cache : List (String × Record)
  remote : List Record
  requests : Nat
  nextId : Nat
deriving DecidableEq, Repr

/-- Initial state for a run over the given cache and remote table. -/
def initSync (cache : List (String × Record)) (remote : List Record) : SyncOutcome :=
  ⟨0, 0, 0, [], [], [], [], [], cache, remote, 0, 0⟩

/-- Fold a `MapDelta` into the run's accumulated field-mapping summary. -/
def addDelta (s : SyncOutcome) (d : MapDelta) : SyncOutcome :=
  { s with skipped_fields := s.skipped_fields ++ d.skipped,
           updated_fields := s.updated_fields ++ d.updated }

/-- `StudentCacheManager.get_student` (cache_manager.py lines 186-196): a pure
dictionary lookup, no network access. -/
def get_student (cache : List (String × Record)) (user_id : String) : Option Record :=
  alistGet cache user_id

/-- Lines 505-532 of `_create_new_student`: the base fields (`用户ID`,
`昵称`) plus the digit-stripped phone when present, with the phone log
warnings. -/
def createBaseFields (sd : StudentData) : Fields × List String :=
  let base : Fields := [("用户ID", .str sd.user_id), ("昵称", .str sd.nickname)]
  if sd.phone ≠ "" then
    let d := stripDigits sd.phone
    if d = "" then (base, ["手机号无有效数字，跳过: " ++ sd.phone])
    else (alistSet base "手机号" (FVal.str d),
          if d.length < 7 || d.length > 15 then [phoneLenWarn d] else [])
  else (base, [])

/-- Fields assembled by `_create_new_student` (lines 504-540): the base
fields plus the mapped CSV fields. Returns the fields, the mapping delta and
the phone log warnings. -/
def buildCreateFields (mapping : List (String × String)) (names : List String)
    (sd : StudentData) : Fields × MapDelta × List String :=
  let bp := createBaseFields sd
  if sd.csv_all_fields.isEmpty then (bp.1, emptyMapDelta, bp.2)
  else
    let dl := map_csv_fields_to_feishu mapping names sd.csv_all_fields
    (alistUpdate bp.1 dl.mapped, dl, bp.2)

/-- `_create_new_student` (lines 494-563): build the fields, issue the remote
create, write the new record into the cache when it is loaded, bump the
counter; a remote failure is converted to an error entry and `None`. -/
def create_new_student (mapping : List (String × String)) (names : List String)
    (createOk : String → Bool) (cacheLoaded : Bool)
    (sd : StudentData) (s : SyncOutcome) : Option String × SyncOutcome :=
  let bcf := buildCreateFields mapping names sd
  let fields := bcf.1
  let delta := bcf.2.1
  let s := addDelta s delta
  if createOk sd.user_id then
    let rid := "rec" ++ toString s.nextId
    (some rid,
      { s with requests := s.requests + 1, nextId := s.nextId + 1,
               remote := s.remote ++ [⟨rid, fields⟩],
               cache := if cacheLoaded then alistSet s.cache sd.user_id ⟨rid, fields⟩
                        else s.cache,
               new_students := s.new_students + 1 })
  else
    (none,
      { s with requests := s.requests + 1,
               errors := s.errors ++ ["创建学员" ++ sd.user_id ++ "失败"] })

/-- `_update_student_if_needed` (lines 565-671) with its effects: when the safe
set is non-empty, issue the remote update, refresh the cached record, and
report `True`; a failed update is converted to an error entry; when nothing is
safe but conflicts exist, record the warning. -/
def update_student_if_needed (mapping : List (String × String)) (names : List String)
    (updOk : String → Bool) (cacheLoaded : Bool)
    (sd : StudentData) (record_id : String) (existing : Record)
    (s : SyncOutcome) : Bool × SyncOutcome :=
  let plan := planUpdate mapping names sd existing
  let s := { addDelta s plan.delta with conflicts := s.conflicts ++ plan.conflicts }
  if plan.safe.isEmpty then
    if plan.conflicts.isEmpty then (false, s)
    else (false, { s with warnings := s.warnings ++ [conflictWarning sd.nickname plan.conflicts] })
  else
    if updOk sd.user_id then
      (true,
        { s with requests := s.requests + 1,
                 remote := s.remote.map (fun r =>
                   if r.record_id = record_id then ⟨r.record_id, alistUpdate r.fields plan.safe⟩
                   else r),
                 cache :=
                   if cacheLoaded then
                     match get_student s.cache sd.user_id with
                     | some cr => alistSet s.cache sd.user_id
                         ⟨cr.record_id, alistUpdate cr.fields plan.safe⟩
                     | none => s.cache
                   else s.cache })
    else
      (false,
        { s with requests := s.requests + 1,
                 errors := s.errors ++ ["更新学员" ++ sd.user_id ++ "字段失败"] })

/-- One step of the loop at lines 368-373: a record with a truthy `用户ID`
contributes a binding under that id (only string ids can ever match a later
string lookup, so a non-string truthy id is observationally absent). -/
def userKeyStep {α : Type} (f : Record → α) (m : List (String × α)) (r : Record) :
    List (String × α) :=
  match alistGet r.fields "用户ID" with
  | some (FVal.str u) => if u ≠ "" then alistSet m u (f r) else m
  | _ => m

/-- The loop at lines 368-373, keyed by each record's `用户ID` value. -/
def buildUserKeyed {α : Type} (f : Record → α) (recs : List Record) :
    List (String × α) :=
  recs.foldl (userKeyStep f) ([] : List (String × α))

/-- Lines 368-373: `student_id_mapping`. -/
def buildIdMap (recs : List Record) : List (String × String) :=
  buildUserKeyed Record.record_id recs

/-- Lines 368-373: `existing_students_mapping`. -/
def buildExMap (recs : List Record) : List (String × Record) :=
  buildUserKeyed id recs

/-- One iteration of the per-student loop (lines 378-401). A missing
`existing_students_mapping` entry for a mapped id raises `KeyError` inside the
`try`, which is caught and recorded (line 400-401) without incrementing
`processed_records`. -/
def processStudent (mapping : List (String × String)) (names : List String)
    (createOk updOk : String → Bool) (cacheLoaded : Bool)
    (exMap : List (String × Record))
    (acc : SyncOutcome × List (String × String)) (sd : StudentData) :
    SyncOutcome × List (String × String) :=
  let s := acc.1
  let idMap := acc.2
  match alistGet idMap sd.user_id with
  | some rid =>
    match alistGet exMap sd.user_id with
    | some ex =>
      let r := update_student_if_needed mapping names updOk cacheLoaded sd rid ex s
      let s := if r.1 then { r.2 with updated_students := r.2.updated_students + 1 } else r.2
      ({ s with processed_records := s.processed_records + 1 }, idMap)
    | none =>
      ({ s with errors := s.errors ++ ["处理学员" ++ sd.user_id ++ "失败"] }, idMap)
  | none =>
    let r := create_new_student mapping names createOk cacheLoaded sd s
    let idMap :=
      match r.1 with
      | some rid => alistSet idMap sd.user_id rid
      | none => idMap
    ({ r.2 with processed_records := r.2.processed_records + 1 }, idMap)

/-- `_sync_students` (lines 334-406) with the cache already ensured loaded:
batch-query the cache for the import's user ids, derive the id and record
maps, then process each unique student in order. -/
def sync_students (mapping : List (String × String)) (names : List String)
    (createOk updOk : String → Bool) (cacheLoaded : Bool)
    (students : List StudentData)
    (cache : List (String × Record)) (remote : List Record) : SyncOutcome :=
  let cachedStudents := (students.map StudentData.user_id).filterMap (alistGet cache)
  let idMap := buildIdMap cachedStudents
  let exMap := buildExMap cachedStudents
  (students.foldl (processStudent mapping names createOk updOk cacheLoaded exMap)
    (initSync cache remote, idMap)).1

/-! ## Top level (`sync_csv_data`, lines 253-332)

The run aborts with a failure response before touching the remote table only
when CSV processing fails or the connection test fails; otherwise the student
loop runs to completion and the run is reported as a success. (The learning
record pass is independent of the claims below and follows the same
per-record catch pattern.)
-/

/-- Outcome of the external CSV processing step. -/
inductive CsvOutcome where
  | failure (err : String)
  | parsed (students : List StudentData)
deriving Repr

/-- The uniform response envelope (`create_response`). -/
structure TopResponse where
  success : Bool
  message : String
deriving DecidableEq, Repr

/-- `sync_csv_data` restricted to the student table: precondition checks, then
the student loop. Returns the response envelope and the final run state. -/
def sync_csv_data (mapping : List (String × String)) (names : List String)
    (createOk updOk : String → Bool) (cacheLoaded connOk : Bool)
    (csvOut : CsvOutcome)
    (cache : List (String × Record)) (remote : List Record) :
    TopResponse × SyncOutcome :=
  match csvOut with
  | .failure e => (⟨false, "CSV文件处理失败: " ++ e⟩, initSync cache remote)
  | .parsed students =>
    if connOk then
      (⟨true, "数据同步完成"⟩,
        sync_students mapping names createOk updOk cacheLoaded students cache remote)
    else (⟨false, "飞书连接失败"⟩, initSync cache remote)

/-! ## Conflict resolution (`update_selected_conflicts`, lines 858-938, and
`_find_user_record`, lines 940-970)

`_find_user_record` pages through the whole student table and filters client
side; the pagination loop visits records in order, so it is the first match
over the concatenated pages. It never consults the student cache. Each call
is one full-table scan; `scans` counts them.
-/

/-- A previously reported conflict selected by the operator
(`{"user_id": ..., "field_name": ..., "new_value": ...}`). -/
structure SelectedConflict where
  user_id : String
  field_name : String
  new_value : FVal
deriving DecidableEq, Repr

/-- Lines 879-884: group the selected conflicts by user id
(dict insertion order, appending within a group). -/
def groupByUser (cs : List SelectedConflict) :
    List (String × List SelectedConflict) :=
  cs.foldl (fun m c =>
    match alistGet m c.user_id with
    | some l => alistSet m c.user_id (l ++ [c])
    | none => m ++ [(c.user_id, [c])]) ([] : List (String × List SelectedConflict))

/-- `_find_user_record`: first record of the full-table scan whose `用户ID`
field equals the user id. -/
def find_user_record (table : List Record) (user_id : String) : Option Record :=
  table.find? (fun r =>
    match alistGet r.fields "用户ID" with
    | some (FVal.str u) => u == user_id
    | _ => false)

/-- Lines 897-901: the update payload for one user's selected conflicts. -/
def conflictUpdateFields (cs : List SelectedConflict) : Fields :=
  cs.foldl (fun d c => alistSet d c.field_name c.new_value) ([] : Fields)

/-- Result data of `update_selected_conflicts`, plus the issued update
requests and the number of full-table scans performed. -/
structure ResolveOutcome where
  updated_count : Nat
  failed_count : Nat
  errors : List String
  updates : List (String × Fields)
  scans : Nat
deriving DecidableEq, Repr

/-- Process one user group (lines 887-918): scan for the record, then issue
one update carrying exactly the operator-approved values; a missing user or a
failed update adds the group's size to `failed_count`. -/
def resolveGroup (updOk : String → Bool) (table : List Record)
    (o : ResolveOutcome) (g : String × List SelectedConflict) : ResolveOutcome :=
  let uid := g.1
  let cs := g.2
  let o := { o with scans := o.scans + 1 }
  match find_user_record table uid with
  | none =>
    { o with errors := o.errors ++ ["用户" ++ uid ++ "不存在"],
             failed_count := o.failed_count + cs.length }
  | some r =>
    if updOk uid then
      { o with updates := o.updates ++ [(r.record_id, conflictUpdateFields cs)],
               updated_count := o.updated_count + cs.length }
    else
      { o with errors := o.errors ++ ["用户" ++ uid ++ "更新失败"],
               failed_count := o.failed_count + cs.length }

/-- `update_selected_conflicts` (lines 858-938): the connection test, then the
grouped, forced updates. The flag is the response's `success`; it is `true`
whenever the connection test passes (per-user failures are reported inside). -/
def update_selected_conflicts (updOk : String → Bool) (connOk : Bool)
    (table : List Record) (selected : List SelectedConflict) :
    Bool × ResolveOutcome :=
  if connOk then
    (true, (groupByUser selected).foldl (resolveGroup updOk table) ⟨0, 0, [], [], 0⟩)
  else (false, ⟨0, 0, [], [], 0⟩)

/-! ## TokenManager (`feishu_client.py`, lines 23-79)

`get_token` returns the cached token while it has more than 300 seconds of
life left; otherwise it refreshes under the lock (the double check collapses
in this sequential model), posting the fixed `app_id`/`app_secret` pair and
recording `time.time() + expire` as the new expiry instant. Time is modelled
in integral seconds.
-/

/-- `TokenManager` mutable state. -/
structure TokenState where
  access_token : Option String
  expire_time : Int
deriving DecidableEq, Repr

/-- The auth endpoint's successful response payload. -/
structure AuthResponse where
  app_access_token : String
  expire : Int
deriving DecidableEq, Repr

/-- Result of a `get_token` call: the token, the new state, and the request
payloads posted to the auth endpoint. -/
structure TokenFetch where
  token : String
  state : TokenState
  requests : List (String × String)
deriving DecidableEq, Repr

/-- `TokenManager._refresh_token` (lines 48-79) on a successful response. -/
def refresh_token (appId appSecret : String) (now : Int) (resp : AuthResponse) :
    TokenState × List (String × String) :=
  (⟨some resp.app_access_token, now + resp.expire⟩, [(appId, appSecret)])

/-- `TokenManager.get_token` (lines 33-46). -/
def get_token (appId appSecret : String) (now : Int) (resp : AuthResponse)
    (st : TokenState) : TokenFetch :=
  match st.access_token with
  | some tok =>
    if now < st.expire_time - 300 then ⟨tok, st, []⟩
    else
      -- under the refresh lock: double check, then refresh
      if now < st.expire_time - 300 then ⟨tok, st, []⟩
      else
        let r := refresh_token appId appSecret now resp
        ⟨resp.app_access_token, r.1, r.2⟩
  | none =>
    let r := refresh_token appId appSecret now resp
    ⟨resp.app_access_token, r.1, r.2⟩

/-! ## Date formatting (`format_date_field`, feishu_client.py lines 394-417)

`strptime` is tried with `%Y-%m-%d`, `%Y/%m/%d`, `%Y-%m-%d %H:%M:%S`,
`%Y/%m/%d %H:%M:%S` in order; the first success is converted to a millisecond
timestamp (local time, modelled by an explicit UTC-offset parameter), and if
every format fails the current time is returned instead. `%Y` matches exactly
four digits; the other fields match one or two digits with their value
ranges, and the resulting calendar date must exist (`datetime` validates
month length and `MINYEAR = 1`).
-/

/-- Parsed components of a date string. -/
structure DateTimeParts where
  year : Nat
  month : Nat
  day : Nat
  hour : Nat
  minute : Nat
  second : Nat
deriving DecidableEq, Repr

/-- Exactly four digits. -/
def parse4 (cs : List Char) : Option (Nat × List Char) :=
  match cs with
  | c1 :: c2 :: c3 :: c4 :: rest =>
    if c1.isDigit && c2.isDigit && c3.isDigit && c4.isDigit then
      some ((c1.toNat - 48) * 1000 + (c2.toNat - 48) * 100 +
            (c3.toNat - 48) * 10 + (c4.toNat - 48), rest)
    else none
  | _ => none

/-- One or two digits (the `strptime` numeric fields). -/
def parse2 (cs : List Char) : Option (Nat × List Char) :=
  match cs with
  | c1 :: rest =>
    if c1.isDigit then
      match rest with
      | c2 :: rest2 =>
        if c2.isDigit then some ((c1.toNat - 48) * 10 + (c2.toNat - 48), rest2)
        else some (c1.toNat - 48, rest)
      | [] => some (c1.toNat - 48, [])
    else none
  | [] => none

/-- Expect a literal character. -/
def expectChar (c : Char) (cs : List Char) : Option (List Char) :=
  match cs with
  | c' :: rest => if c' == c then some rest else none
  | [] => none

/-- Gregorian leap year. -/
def isLeapYear (y : Nat) : Bool :=
  (y % 4 == 0 && y % 100 ≠ 0) || y % 400 == 0

/-- Days in a month. -/
def daysInMonth (y m : Nat) : Nat :=
  if m == 2 then (if isLeapYear y then 29 else 28)
  else if m == 4 || m == 6 || m == 9 || m == 11 then 30
  else 31

/-- `strptime` for one of the four supported formats: `sep` is `-` or `/`,
`withTime` selects the ` %H:%M:%S` tail. Requires a full match and a valid
calendar date. -/
def strptimeModel (sep : Char) (withTime : Bool) (s : String) :
    Option DateTimeParts :=
  match parse4 s.data with
  | none => none
  | some (y, cs) =>
    match expectChar sep cs with
    | none => none
    | some cs =>
      match parse2 cs with
      | none => none
      | some (m, cs) =>
        match expectChar sep cs with
        | none => none
        | some cs =>
          match parse2 cs with
          | none => none
          | some (d, cs) =>
            let timePart : Option (Nat × Nat × Nat × List Char) :=
              if withTime then
                match expectChar ' ' cs with
                | none => none
                | some cs =>
                  match parse2 cs with
                  | none => none
                  | some (hh, cs) =>
                    match expectChar ':' cs with
                    | none => none
                    | some cs =>
                      match parse2 cs with
                      | none => none
                      | some (mi, cs) =>
                        match expectChar ':' cs with
                        | none => none
                        | some cs =>
                          match parse2 cs with
                          | none => none
                          | some (ss, cs) => some (hh, mi, ss, cs)
              else some (0, 0, 0, cs)
            match timePart with
            | none => none
            | some (hh, mi, ss, rest) =>
              if rest.isEmpty ∧ 1 ≤ y ∧ 1 ≤ m ∧ m ≤ 12 ∧ 1 ≤ d ∧
                  d ≤ daysInMonth y m ∧ hh ≤ 23 ∧ mi ≤ 59 ∧ ss ≤ 59 then
                some ⟨y, m, d, hh, mi, ss⟩
              else none

/-- Try the four formats in the order of the `formats` list. -/
def parseAnyDateFormat (s : String) : Option DateTimeParts :=
  (strptimeModel '-' false s).orElse (fun _ =>
    (strptimeModel '/' false s).orElse (fun _ =>
      (strptimeModel '-' true s).orElse (fun _ =>
        strptimeModel '/' true s)))

/-- Days from the civil epoch 1970-01-01 (proleptic Gregorian). -/
def daysFromCivil (p : DateTimeParts) : Int :=
  let yAdj : Nat := p.year - (if p.month ≤ 2 then 1 else 0)
  let era : Nat := yAdj / 400
  let yoe : Nat := yAdj % 400
  let mp : Nat := (p.month + 9) % 12
  let doy : Nat := (153 * mp + 2) / 5 + (p.day - 1)
  let doe : Nat := yoe * 365 + yoe / 4 - yoe / 100 + doy
  (era * 146097 + doe : Int) - 719468

/-- `int(dt.timestamp() * 1000)` for a naive local datetime with the given
UTC offset in seconds. -/
def toTimestampMillis (tzOffSec : Int) (p : DateTimeParts) : Int :=
  (daysFromCivil p * 86400 +
   (p.hour : Int) * 3600 + (p.minute : Int) * 60 + (p.second : Int) - tzOffSec) * 1000

/-- `format_date_field` (lines 394-417): total by construction; the current
time (in milliseconds) is returned when no format matches. -/
def format_date_field (tzOffSec nowMillis : Int) (date_str : String) : Int :=
  match parseAnyDateFormat date_str with
  | some p => toTimestampMillis tzOffSec p
  | none => nowMillis

/-! ## Association-list lemmas -/

theorem alistGet_cons {α : Type} (k' : String) (v : α) (d : List (String × α)) (k : String) :
    alistGet ((k', v) :: d) k = if k' = k then some v else alistGet d k := rfl

theorem alistKeys_cons {α : Type} (p : String × α) (d : List (String × α)) :
    alistKeys (p :: d) = p.1 :: alistKeys d := rfl

theorem alistGet_none_iff_not_mem_keys {α : Type} {d : List (String × α)} {k : String} :
    alistGet d k = none ↔ k ∉ alistKeys d := by
  induction d with
  | nil => simp [alistGet, alistKeys]
  | cons p d ih =>
    obtain ⟨k', v⟩ := p
    rw [alistGet_cons, alistKeys_cons, List.mem_cons]
    by_cases h : k' = k
    · simp [h]
    · simp only [h, if_false, ih]
      constructor
      · intro hn hc
        rcases hc with hc | hc
        · exact h hc.symm
        · exact hn hc
      · intro hn
        exact fun hc => hn (Or.inr hc)

theorem alistHas_iff_mem_keys {α : Type} {d : List (String × α)} {k : String} :
    alistHas d k = true ↔ k ∈ alistKeys d := by
  unfold alistHas
  cases hg : alistGet d k with
  | none =>
    simp only [Option.isSome_none]
    have := alistGet_none_iff_not_mem_keys.mp hg
    simpa using this
  | some w =>
    simp only [Option.isSome_some, true_iff]
    by_contra hc
    rw [← alistGet_none_iff_not_mem_keys] at hc
    rw [hg] at hc
    cases hc

theorem alistGet_map_replace_self {α : Type} {d : List (String × α)} {k : String} {v : α}
    (h : alistHas d k = true) :
    alistGet (d.map (fun p => if p.1 = k then (k, v) else p)) k = some v := by
  induction d with
  | nil => simp [alistHas, alistGet] at h
  | cons p d ih =>
    obtain ⟨k', w⟩ := p
    by_cases hk : k' = k
    · subst hk
      simp [alistGet_cons]
    · have h' : alistHas d k = true := by
        simpa [alistHas, alistGet_cons, hk] using h
      simpa [alistGet_cons, hk] using ih h'

theorem alistGet_map_replace_ne {α : Type} {d : List (String × α)} {k k' : String} {v : α}
    (h : k' ≠ k) :
    alistGet (d.map (fun p => if p.1 = k then (k, v) else p)) k' = alistGet d k' := by
  induction d with
  | nil => simp [alistGet]
  | cons p d ih =>
    obtain ⟨a, b⟩ := p
    by_cases ha : a = k
    · subst ha
      have hne : a ≠ k' := fun hc => h hc.symm
      simpa [alistGet_cons, hne, h] using ih
    · by_cases ha' : a = k' <;> simp [alistGet_cons, ha, ha', ih, h]

theorem alistGet_append_left_none {α : Type} {d e : List (String × α)} {k : String}
    (h : alistGet d k = none) : alistGet (d ++ e) k = alistGet e k := by
  induction d with
  | nil => simp
  | cons p d ih =>
    obtain ⟨a, b⟩ := p
    by_cases ha : a = k
    · simp [alistGet_cons, ha] at h
    · rw [alistGet_cons] at h
      simp only [ha, if_false] at h
      simpa [alistGet_cons, ha] using ih h

theorem alistGet_append_right_none {α : Type} {d e : List (String × α)} {k : String}
    (h : alistGet e k = none) : alistGet (d ++ e) k = alistGet d k := by
  induction d with
  | nil => simpa using h
  | cons p d ih =>
    obtain ⟨a, b⟩ := p
    by_cases ha : a = k <;> simp [alistGet_cons, ha, ih]

theorem alistHas_eq_false {α : Type} {d : List (String × α)} {k : String}
    (h : ¬alistHas d k = true) : alistGet d k = none := by
  cases hg : alistGet d k with
  | none => rfl
  | some w => simp [alistHas, hg] at h

theorem alistGet_set_self {α : Type} (d : List (String × α)) (k : String) (v : α) :
    alistGet (alistSet d k v) k = some v := by
  unfold alistSet
  by_cases h : alistHas d k = true
  · rw [if_pos h]
    exact alistGet_map_replace_self h
  · rw [if_neg h, alistGet_append_left_none (alistHas_eq_false h)]
    simp [alistGet_cons]

theorem alistGet_set_ne {α : Type} {d : List (String × α)} {k k' : String} {v : α}
    (h : k' ≠ k) : alistGet (alistSet d k v) k' = alistGet d k' := by
  unfold alistSet
  by_cases hh : alistHas d k = true
  · rw [if_pos hh]
    exact alistGet_map_replace_ne h
  · rw [if_neg hh]
    have hsing : alistGet [(k, v)] k' = none := by
      rw [alistGet_cons, if_neg (fun hc => h hc.symm)]
      rfl
    rw [alistGet_append_right_none hsing]

theorem mem_alistSet {α : Type} {d : List (String × α)} {k : String} {v : α}
    {p : String × α} (h : p ∈ alistSet d k v) : p ∈ d ∨ p = (k, v) := by
  unfold alistSet at h
  by_cases hh : alistHas d k = true
  · rw [if_pos hh] at h
    rw [List.mem_map] at h
    obtain ⟨q, hq, hfq⟩ := h
    by_cases hqk : q.1 = k
    · right
      simp only [hqk, if_true] at hfq
      exact hfq.symm
    · left
      simp only [hqk, if_false] at hfq
      exact hfq ▸ hq
  · rw [if_neg hh, List.mem_append, List.mem_singleton] at h
    exact h

theorem alistKeys_set_of_has {α : Type} {d : List (String × α)} {k : String} {v : α}
    (hh : alistHas d k = true) : alistKeys (alistSet d k v) = alistKeys d := by
  unfold alistSet
  rw [if_pos hh]
  unfold alistKeys
  rw [List.map_map]
  apply List.map_congr_left
  intro q _
  by_cases hq : q.1 = k <;> simp [hq, Function.comp]

theorem alistKeys_set_of_not_has {α : Type} {d : List (String × α)} {k : String} {v : α}
    (hh : ¬alistHas d k = true) :
    alistKeys (alistSet d k v) = alistKeys d ++ [k] := by
  unfold alistSet
  rw [if_neg hh]
  simp [alistKeys]

theorem alistKeys_set_nodup {α : Type} {d : List (String × α)} {k : String} {v : α}
    (h : (alistKeys d).Nodup) : (alistKeys (alistSet d k v)).Nodup := by
  by_cases hh : alistHas d k = true
  · rw [alistKeys_set_of_has hh]
    exact h
  · rw [alistKeys_set_of_not_has hh]
    have hk : k ∉ alistKeys d := fun hm => hh (alistHas_iff_mem_keys.mpr hm)
    simp [List.nodup_append, h, hk]

theorem alistGet_update_not_mem {α : Type} {u : List (String × α)} {k : String}
    (h : k ∉ alistKeys u) (d : List (String × α)) :
    alistGet (alistUpdate d u) k = alistGet d k := by
  induction u generalizing d with
  | nil => rfl
  | cons p u ih =>
    rw [alistKeys_cons, List.mem_cons] at h
    push_neg at h
    have hstep : alistUpdate d (p :: u) = alistUpdate (alistSet d p.1 p.2) u := rfl
    rw [hstep, ih h.2, alistGet_set_ne h.1]

theorem alistGet_update_mem {α : Type} {u : List (String × α)} {k : String} {v : α}
    (hnd : (alistKeys u).Nodup) (hm : (k, v) ∈ u) (d : List (String × α)) :
    alistGet (alistUpdate d u) k = some v := by
  induction u generalizing d with
  | nil => cases hm
  | cons p u ih =>
    rw [alistKeys_cons, List.nodup_cons] at hnd
    have hstep : alistUpdate d (p :: u) = alistUpdate (alistSet d p.1 p.2) u := rfl
    rcases List.mem_cons.mp hm with he | hm'
    · have hk : k ∉ alistKeys u := by
        rw [← he] at hnd
        exact hnd.1
      rw [hstep, alistGet_update_not_mem hk, ← he, alistGet_set_self]
    · rw [hstep]
      exact ih hnd.2 hm' (alistSet d p.1 p.2)

/-! ## String-stripping lemmas -/

theorem dropWhile_head_false {p : Char → Bool} {l : List Char} {b : Char} {t : List Char}
    (h : l.dropWhile p = b :: t) : p b = false := by
  induction l with
  | nil => cases h
  | cons a l ih =>
    by_cases ha : p a = true
    · rw [List.dropWhile_cons_of_pos ha] at h
      exact ih h
    · rw [List.dropWhile_cons_of_neg ha] at h
      cases h
      simpa using ha

theorem mem_dropWhile_of_not {p : Char → Bool} {l : List Char} {c : Char}
    (hm : c ∈ l) (hc : p c = false) : c ∈ l.dropWhile p := by
  induction l with
  | nil => cases hm
  | cons a l ih =>
    by_cases ha : p a = true
    · rw [List.dropWhile_cons_of_pos ha]
      rcases List.mem_cons.mp hm with he | hm'
      · rw [he] at hc
        rw [hc] at ha
        cases ha
      · exact ih hm'
    · rw [List.dropWhile_cons_of_neg ha]
      exact hm

theorem pyStripList_ne_nil {l : List Char} {c : Char}
    (hm : c ∈ l) (hc : pyIsSpace c = false) : pyStripList l ≠ [] := by
  unfold pyStripList
  have h1 : c ∈ l.dropWhile pyIsSpace := mem_dropWhile_of_not hm hc
  have h2 : c ∈ (l.dropWhile pyIsSpace).reverse := List.mem_reverse.mpr h1
  have h3 : c ∈ (l.dropWhile pyIsSpace).reverse.dropWhile pyIsSpace :=
    mem_dropWhile_of_not h2 hc
  intro hnil
  rw [List.reverse_eq_nil_iff] at hnil
  rw [hnil] at h3
  cases h3

theorem pyStripList_has_non_space {l : List Char} (h : pyStripList l ≠ []) :
    ∃ c ∈ pyStripList l, pyIsSpace c = false := by
  unfold pyStripList at h ⊢
  cases hd : (l.dropWhile pyIsSpace).reverse.dropWhile pyIsSpace with
  | nil => rw [hd] at h; simp at h
  | cons b t =>
    exact ⟨b, List.mem_reverse.mpr (List.mem_cons_self b t), dropWhile_head_false hd⟩

theorem mk_ne_empty_iff {l : List Char} : String.mk l ≠ "" ↔ l ≠ [] := by
  constructor
  · intro h hc
    apply h
    rw [hc]
  · intro h hc
    exact h (congrArg String.data hc)

theorem pyStrip_data (s : String) : (pyStrip s).data = pyStripList s.data := rfl

/-- Stripping an already-stripped non-blank string leaves it non-blank. -/
theorem pyStrip_pyStrip_ne_empty {s : String} (h : pyStrip s ≠ "") :
    pyStrip (pyStrip s) ≠ "" := by
  rw [mk_ne_empty_iff]
  have hne : pyStripList s.data ≠ [] := by
    rw [pyStrip, mk_ne_empty_iff] at h
    exact h
  obtain ⟨c, hm, hc⟩ := pyStripList_has_non_space hne
  rw [pyStrip_data]
  exact pyStripList_ne_nil hm hc

theorem pyIsSpace_of_isDigit {c : Char} (h : c.isDigit = true) : pyIsSpace c = false := by
  by_contra hc
  rw [Bool.not_eq_false] at hc
  unfold pyIsSpace at hc
  have hd := h
  unfold Char.isDigit at hd
  rcases Bool.or_eq_true_iff.mp hc with hc' | h6
  rcases Bool.or_eq_true_iff.mp hc' with hc' | h5
  rcases Bool.or_eq_true_iff.mp hc' with hc' | h4
  rcases Bool.or_eq_true_iff.mp hc' with hc' | h3
  rcases Bool.or_eq_true_iff.mp hc' with h1 | h2
  · rw [eq_of_beq h1] at hd; cases hd
  · rw [eq_of_beq h2] at hd; cases hd
  · rw [eq_of_beq h3] at hd; cases hd
  · rw [eq_of_beq h4] at hd; cases hd
  · rw [eq_of_beq h5] at hd; cases hd
  · rw [eq_of_beq h6] at hd; cases hd

/-- A non-empty all-digit string strips to something non-blank. -/
theorem pyStrip_stripDigits_ne_empty {s : String} (h : stripDigits s ≠ "") :
    pyStrip (stripDigits s) ≠ "" := by
  rw [mk_ne_empty_iff]
  unfold stripDigits at h
  rw [mk_ne_empty_iff] at h
  obtain ⟨c, hm⟩ := List.exists_mem_of_ne_nil _ h
  have hd : c.isDigit = true := (List.mem_filter.mp hm).2
  rw [pyStrip_data]
  exact pyStripList_ne_nil hm (pyIsSpace_of_isDigit hd)

/-- Small positive integers print as non-blank strings. -/
theorem pyStrip_int_toString_ne_empty {a : Int} (h1 : 1 ≤ a) (h2 : a ≤ 120) :
    pyStrip (toString a) ≠ "" := by
  have hb : ∀ n : Nat, n < 121 → pyStrip (toString (Int.ofNat n)) ≠ "" := by decide
  have ha : a = Int.ofNat a.toNat := (Int.toNat_of_nonneg (by omega)).symm
  rw [ha]
  exact hb a.toNat (by omega)

/-- A value is good when it is truthy and its string form is non-blank
(the shape of every value the field mapper emits). -/
def goodVal (v : FVal) : Prop := pyTruthy v = true ∧ pyStrip (pyStr v) ≠ ""

/-! ## Lemmas about `map_csv_fields_to_feishu` -/

theorem mapMatched_mapped (acc : MapDelta) (csvField value f : String) :
    (mapMatched acc csvField value f).mapped = acc.mapped ∨
    ∃ v, (mapMatched acc csvField value f).mapped = alistSet acc.mapped f v ∧ goodVal v := by
  unfold mapMatched
  by_cases h1 : (pyStrip value == "" || isSentinel (pyStrip value)) = true
  · rw [if_pos h1]
    left
    rfl
  · rw [if_neg h1]
    have hcl : pyStrip value ≠ "" := by
      intro hc
      apply h1
      rw [hc]
      rfl
    by_cases h2 : (f == "年龄") = true
    · rw [if_pos h2]
      by_cases h3 : (pyStrip value == "" || pyLower (pyStrip value) == "0") = true
      · rw [if_pos h3]
        left
        rfl
      · rw [if_neg h3]
        cases hp : pyIntOfFloat (pyStrip value) with
        | none => left; rfl
        | some a =>
          dsimp only
          by_cases h4 : (decide (a < 1) || decide (a > 120)) = true
          · rw [if_pos h4]
            left
            rfl
          · rw [if_neg h4]
            right
            refine ⟨FVal.int a, rfl, ?_, ?_⟩
            · have : ¬a < 1 ∧ ¬a > 120 := by
                constructor <;> intro hc <;> apply h4 <;> simp [hc]
              simp only [pyTruthy]
              have : a ≠ 0 := by omega
              simpa using this
            · have hb : ¬a < 1 ∧ ¬a > 120 := by
                constructor <;> intro hc <;> apply h4 <;> simp [hc]
              exact pyStrip_int_toString_ne_empty (by omega) (by omega)
    · rw [if_neg h2]
      by_cases h5 : (f == "手机号") = true
      · rw [if_pos h5]
        by_cases h6 : (stripDigits (pyStrip value) == "") = true
        · rw [if_pos h6]
          left
          rfl
        · rw [if_neg h6]
          right
          refine ⟨FVal.str (stripDigits (pyStrip value)), rfl, ?_, ?_⟩
          · simp only [pyTruthy]
            simpa using h6
          · exact pyStrip_stripDigits_ne_empty (by simpa using h6)
      · rw [if_neg h5]
        right
        refine ⟨FVal.str (pyStrip value), rfl, ?_, ?_⟩
        · simp only [pyTruthy]
          simpa using hcl
        · exact pyStrip_pyStrip_ne_empty hcl

theorem mapFieldStep_mapped (mapping : List (String × String)) (names : List String)
    (acc : MapDelta) (kv : String × String) :
    (mapFieldStep mapping names acc kv).mapped = acc.mapped ∨
    ∃ f v, (mapFieldStep mapping names acc kv).mapped = alistSet acc.mapped f v ∧ goodVal v := by
  unfold mapFieldStep
  by_cases h1 : (kv.2 == "" || pyStrip kv.2 == "") = true
  · rw [if_pos h1]
    left
    rfl
  · rw [if_neg h1]
    cases hm : alistGet mapping kv.1 with
    | none =>
      by_cases h2 : kv.1 ∈ coreCsvNames
      · rw [if_pos h2]
        left
        rfl
      · rw [if_neg h2]
        left
        rfl
    | some f =>
      dsimp only
      by_cases h3 : f ≠ "" ∧ f ∈ names
      · rw [if_pos h3]
        rcases mapMatched_mapped acc kv.1 kv.2 f with he | ⟨v, hv, hg⟩
        · left
          exact he
        · right
          exact ⟨f, v, hv, hg⟩
      · rw [if_neg h3]
        by_cases h4 : kv.1 ∈ coreCsvNames
        · rw [if_pos h4]
          left
          rfl
        · rw [if_neg h4]
          by_cases h5 : f ≠ ""
          · rw [if_pos h5]
            left
            rfl
          · rw [if_neg h5]
            left
            rfl

/-- Invariant of the mapping fold: mapped values are good and mapped keys are
distinct. -/
theorem mapCsv_fold_inv (mapping : List (String × String)) (names : List String)
    (csv : List (String × String)) (acc : MapDelta)
    (hgood : ∀ p ∈ acc.mapped, goodVal p.2)
    (hnd : (alistKeys acc.mapped).Nodup) :
    (∀ p ∈ (csv.foldl (mapFieldStep mapping names) acc).mapped, goodVal p.2) ∧
      (alistKeys (csv.foldl (mapFieldStep mapping names) acc).mapped).Nodup := by
  induction csv generalizing acc with
  | nil => exact ⟨hgood, hnd⟩
  | cons kv csv ih =>
    rw [List.foldl_cons]
    apply ih
    · intro p hp
      rcases mapFieldStep_mapped mapping names acc kv with he | ⟨f, v, hv, hg⟩
      · rw [he] at hp
        exact hgood p hp
      · rw [hv] at hp
        rcases mem_alistSet hp with hin | heq
        · exact hgood p hin
        · rw [heq]
          exact hg
    · rcases mapFieldStep_mapped mapping names acc kv with he | ⟨f, v, hv, _⟩
      · rw [he]
        exact hnd
      · rw [hv]
        exact alistKeys_set_nodup hnd

/-- Every value produced by the field mapper is truthy with a non-blank
string form. -/
theorem mapCsv_mapped_goodVal {mapping : List (String × String)} {names : List String}
    {csv : List (String × String)} {p : String × FVal}
    (hp : p ∈ (map_csv_fields_to_feishu mapping names csv).mapped) : goodVal p.2 :=
  (mapCsv_fold_inv mapping names csv emptyMapDelta (by intro q hq; cases hq)
    (by simp [alistKeys, emptyMapDelta])).1 p hp

/-- The mapped dict has distinct keys. -/
theorem mapCsv_mapped_keys_nodup (mapping : List (String × String)) (names : List String)
    (csv : List (String × String)) :
    (alistKeys (map_csv_fields_to_feishu mapping names csv).mapped).Nodup :=
  (mapCsv_fold_inv mapping names csv emptyMapDelta (by intro q hq; cases hq)
    (by simp [alistKeys, emptyMapDelta])).2

/-! ## Lemmas about conflicts and safe updates -/

theorem mem_keys_iff {α : Type} {d : List (String × α)} {k : String} :
    k ∈ alistKeys d ↔ ∃ v, (k, v) ∈ d := by
  unfold alistKeys
  rw [List.mem_map]
  constructor
  · rintro ⟨⟨k', v⟩, hm, he⟩
    dsimp only at he
    subst he
    exact ⟨v, hm⟩
  · rintro ⟨v, hm⟩
    exact ⟨(k, v), hm, rfl⟩

theorem detect_conflicts_mem {new_fields existing_fields : Fields}
    {user_id nickname f : String} {v w : FVal}
    (hmem : (f, v) ∈ new_fields)
    (hw : alistGet existing_fields f = some w)
    (ht : pyTruthy w = true) (hne : pyStrip (pyStr w) ≠ "")
    (hdiff : pyStrip (pyStr w) ≠ pyStrip (pyStr v)) :
    mkFieldConflict f w v user_id nickname ∈
      detect_conflicts new_fields existing_fields user_id nickname := by
  have hcond : (pyTruthy w && decide (pyStrip (pyStr w) ≠ "") &&
      decide (pyStrip (pyStr w) ≠ pyStrip (pyStr v))) = true := by
    simp [ht, hne, hdiff]
  unfold detect_conflicts
  rw [List.mem_filterMap]
  refine ⟨(f, v), hmem, ?_⟩
  dsimp only
  rw [hw]
  simp only [hcond, if_true]

theorem detect_conflicts_spec {new_fields existing_fields : Fields}
    {user_id nickname : String} {c : FieldConflict}
    (hc : c ∈ detect_conflicts new_fields existing_fields user_id nickname) :
    ∃ v, (c.field_name, v) ∈ new_fields ∧
      alistGet existing_fields c.field_name = some c.existing_value ∧
      pyTruthy c.existing_value = true ∧
      pyStrip (pyStr c.existing_value) ≠ "" ∧
      pyStrip (pyStr c.existing_value) ≠ pyStrip (pyStr v) := by
  unfold detect_conflicts at hc
  rw [List.mem_filterMap] at hc
  obtain ⟨⟨f, v⟩, hmem, hfn⟩ := hc
  dsimp only at hfn
  cases hw : alistGet existing_fields f with
  | none => rw [hw] at hfn; cases hfn
  | some w =>
    rw [hw] at hfn
    dsimp only at hfn
    by_cases hcond :
        (pyTruthy w && decide (pyStrip (pyStr w) ≠ "") &&
          decide (pyStrip (pyStr w) ≠ pyStrip (pyStr v))) = true
    · rw [if_pos hcond] at hfn
      cases hfn
      have h1 := hcond
      simp only [Bool.and_eq_true, decide_eq_true_eq] at h1
      exact ⟨v, hmem, hw, h1.1.1, h1.1.2, h1.2⟩
    · rw [if_neg hcond] at hfn
      cases hfn

theorem mem_safeUpdates_iff {new_fields existing_fields : Fields}
    {conflicts : List FieldConflict} {f : String} {v : FVal} :
    (f, v) ∈ safeUpdates new_fields existing_fields conflicts ↔
      (f, v) ∈ new_fields ∧
      (conflicts.map FieldConflict.field_name).contains f = false ∧
      isEmptyExisting (alistGet existing_fields f) = true := by
  unfold safeUpdates
  rw [List.mem_filter]
  constructor
  · rintro ⟨h1, h2⟩
    simp only [Bool.and_eq_true, Bool.not_eq_true'] at h2
    exact ⟨h1, h2.1, h2.2⟩
  · rintro ⟨h1, h2, h3⟩
    refine ⟨h1, ?_⟩
    rw [Bool.and_eq_true, Bool.not_eq_true']
    exact ⟨h2, h3⟩

theorem isEmptyExisting_false_of_str {existing_fields : Fields} {f es : String}
    (hex : alistGet existing_fields f = some (FVal.str es)) (hne : pyStrip es ≠ "") :
    isEmptyExisting (alistGet existing_fields f) = false := by
  rw [hex]
  unfold isEmptyExisting
  have hes : es ≠ "" := by
    intro hc
    apply hne
    rw [hc]
    rfl
  simp [pyTruthy, pyStr, hes, hne]

theorem not_mem_safe_keys {new_fields existing_fields : Fields}
    {conflicts : List FieldConflict} {f : String}
    (h : isEmptyExisting (alistGet existing_fields f) = false) :
    f ∉ alistKeys (safeUpdates new_fields existing_fields conflicts) := by
  intro hk
  obtain ⟨v, hv⟩ := mem_keys_iff.mp hk
  have := (mem_safeUpdates_iff.mp hv).2.2
  rw [h] at this
  cases this

theorem safe_keys_nodup {new_fields existing_fields : Fields}
    {conflicts : List FieldConflict}
    (hnd : (alistKeys new_fields).Nodup) :
    (alistKeys (safeUpdates new_fields existing_fields conflicts)).Nodup := by
  apply List.Sublist.nodup _ hnd
  exact List.Sublist.map Prod.fst (List.filter_sublist new_fields)

/-- When some candidate field exists, `planUpdate` took the main branch. -/
theorem planUpdate_of_mem {mapping : List (String × String)} {names : List String}
    {sd : StudentData} {existing : Record} {f : String} {v : FVal}
    (hmem : (f, v) ∈ (planUpdate mapping names sd existing).new_fields) :
    planUpdate mapping names sd existing =
      ⟨(map_csv_fields_to_feishu mapping names sd.csv_all_fields).mapped,
       detect_conflicts (map_csv_fields_to_feishu mapping names sd.csv_all_fields).mapped
         existing.fields sd.user_id sd.nickname,
       safeUpdates (map_csv_fields_to_feishu mapping names sd.csv_all_fields).mapped
         existing.fields
         (detect_conflicts (map_csv_fields_to_feishu mapping names sd.csv_all_fields).mapped
           existing.fields sd.user_id sd.nickname),
       map_csv_fields_to_feishu mapping names sd.csv_all_fields⟩ := by
  unfold planUpdate at hmem ⊢
  by_cases h1 : sd.csv_all_fields.isEmpty
  · rw [if_pos h1] at hmem
    cases hmem
  · rw [if_neg h1] at hmem ⊢
    dsimp only at hmem ⊢
    by_cases h2 : (map_csv_fields_to_feishu mapping names sd.csv_all_fields).mapped.isEmpty
    · rw [if_pos h2] at hmem
      cases hmem
    · rw [if_neg h2] at hmem ⊢

/-- The run's conflict list after `_update_student_if_needed` is the old list
with the plan's conflicts appended, in every branch. -/
theorem update_student_conflicts_eq (mapping : List (String × String)) (names : List String)
    (updOk : String → Bool) (cacheLoaded : Bool) (sd : StudentData)
    (record_id : String) (existing : Record) (s : SyncOutcome) :
    (update_student_if_needed mapping names updOk cacheLoaded sd record_id existing s).2.conflicts
      = s.conflicts ++ (planUpdate mapping names sd existing).conflicts := by
  unfold update_student_if_needed
  dsimp only
  repeat' split
  all_goals rfl

/-! ## Claims C1 and C2 -/

/-- C1: for an existing entity, a destination field whose existing remote
value is non-empty (a string that is non-blank after stripping) and differs,
after stripping, from the proposed candidate value is not part of the safe
update request `_update_student_if_needed` sends — so applying the request
leaves the field's value unchanged — and a `FieldConflict` naming the field
and the entity's natural key (user id) is recorded in the run's conflict
list. -/
theorem claim_C1 (mapping : List (String × String)) (names : List String)
    (updOk : String → Bool) (cacheLoaded : Bool) (sd : StudentData)
    (record_id : String) (existing : Record) (s : SyncOutcome)
    (f : String) (v : FVal) (es : String)
    (hmem : (f, v) ∈ (planUpdate mapping names sd existing).new_fields)
    (hex : alistGet existing.fields f = some (FVal.str es))
    (hne : pyStrip es ≠ "")
    (hdiff : pyStrip es ≠ pyStrip (pyStr v)) :
    f ∉ alistKeys (planUpdate mapping names sd existing).safe ∧
    alistGet (alistUpdate existing.fields (planUpdate mapping names sd existing).safe) f
      = some (FVal.str es) ∧
    ∃ c ∈ (update_student_if_needed mapping names updOk cacheLoaded sd record_id
        existing s).2.conflicts,
      c.field_name = f ∧ c.user_id = sd.user_id ∧
      c.existing_value = FVal.str es ∧ c.new_value = v := by
  have hplan := planUpdate_of_mem hmem
  have hnotsafe : f ∉ alistKeys (planUpdate mapping names sd existing).safe := by
    rw [hplan]
    exact not_mem_safe_keys (isEmptyExisting_false_of_str hex hne)
  refine ⟨hnotsafe, ?_, ?_⟩
  · rw [alistGet_update_not_mem hnotsafe, hex]
  · have hmem' : (f, v) ∈
        (map_csv_fields_to_feishu mapping names sd.csv_all_fields).mapped := by
      rw [hplan] at hmem
      exact hmem
    have hes : es ≠ "" := by
      intro hc
      apply hne
      rw [hc]
      rfl
    have hc := @detect_conflicts_mem _ _ sd.user_id sd.nickname _ _ _
      hmem' hex (by simp [pyTruthy, hes]) (by simpa [pyStr] using hne)
      (by simpa [pyStr] using hdiff)
    refine ⟨mkFieldConflict f (FVal.str es) v sd.user_id sd.nickname, ?_, rfl, rfl, rfl, rfl⟩
    rw [update_student_conflicts_eq, hplan]
    exact List.mem_append_right _ hc

/-- C1 witness: a concrete existing record with a conflicting, non-empty
`城市` value. -/
theorem claim_C1_witness :
    (("城市", FVal.str "Beijing") ∈
      (planUpdate [("城市", "城市")] ["城市"]
        ⟨"u1", "Alice", "", [("城市", "Beijing")]⟩
        ⟨"recA", [("城市", FVal.str "Shanghai")]⟩).new_fields) ∧
    ("城市" ∉ alistKeys (planUpdate [("城市", "城市")] ["城市"]
        ⟨"u1", "Alice", "", [("城市", "Beijing")]⟩
        ⟨"recA", [("城市", FVal.str "Shanghai")]⟩).safe ∧
      alistGet (alistUpdate [("城市", FVal.str "Shanghai")]
          (planUpdate [("城市", "城市")] ["城市"]
            ⟨"u1", "Alice", "", [("城市", "Beijing")]⟩
            ⟨"recA", [("城市", FVal.str "Shanghai")]⟩).safe) "城市"
        = some (FVal.str "Shanghai") ∧
      ∃ c ∈ (update_student_if_needed [("城市", "城市")] ["城市"] (fun _ => true) true
          ⟨"u1", "Alice", "", [("城市", "Beijing")]⟩ "recA"
          ⟨"recA", [("城市", FVal.str "Shanghai")]⟩ (initSync [] [])).2.conflicts,
        c.field_name = "城市" ∧ c.user_id = "u1" ∧
        c.existing_value = FVal.str "Shanghai" ∧ c.new_value = FVal.str "Beijing") :=
  ⟨by decide,
   claim_C1 [("城市", "城市")] ["城市"] (fun _ => true) true
     ⟨"u1", "Alice", "", [("城市", "Beijing")]⟩ "recA"
     ⟨"recA", [("城市", FVal.str "Shanghai")]⟩ (initSync [] [])
     "城市" (FVal.str "Beijing") "Shanghai"
     (by decide) (by decide) (by decide) (by decide)⟩

/-- C2: for an existing entity, a destination field whose existing remote
value is empty (absent, empty, or whitespace-only) and whose validated
candidate value is non-empty is part of the safe update request — applying
the request sets the field to the candidate value, the update is issued
(`_update_student_if_needed` returns `True`) — and no `FieldConflict` for
that field is produced. -/
theorem claim_C2 (mapping : List (String × String)) (names : List String)
    (updOk : String → Bool) (cacheLoaded : Bool) (sd : StudentData)
    (record_id : String) (existing : Record) (s : SyncOutcome)
    (f : String) (v : FVal)
    (hupd : updOk sd.user_id = true)
    (hmem : (f, v) ∈ (planUpdate mapping names sd existing).new_fields)
    (hempty : alistGet existing.fields f = none ∨
      ∃ es, alistGet existing.fields f = some (FVal.str es) ∧ pyStrip es = "") :
    (f, v) ∈ (planUpdate mapping names sd existing).safe ∧
    alistGet (alistUpdate existing.fields (planUpdate mapping names sd existing).safe) f
      = some v ∧
    (∀ c ∈ (planUpdate mapping names sd existing).conflicts, c.field_name ≠ f) ∧
    (update_student_if_needed mapping names updOk cacheLoaded sd record_id
      existing s).1 = true := by
  have hplan := planUpdate_of_mem hmem
  have hmem' : (f, v) ∈
      (map_csv_fields_to_feishu mapping names sd.csv_all_fields).mapped := by
    rw [hplan] at hmem
    exact hmem
  have hemp : isEmptyExisting (alistGet existing.fields f) = true := by
    rcases hempty with hn | ⟨es, hs, he⟩
    · rw [hn]
      rfl
    · rw [hs]
      unfold isEmptyExisting
      have : pyStrip (pyStr (FVal.str es)) == "" := by
        simp [pyStr, he]
      simp [this]
  have hnoc : ∀ c ∈ (planUpdate mapping names sd existing).conflicts,
      c.field_name ≠ f := by
    rw [hplan]
    intro c hc he
    obtain ⟨v', _, hw, ht, hne, _⟩ := detect_conflicts_spec hc
    rw [he] at hw
    rcases hempty with hn | ⟨es, hs, hstrip⟩
    · rw [hn] at hw
      cases hw
    · rw [hs] at hw
      have hev : c.existing_value = FVal.str es := by
        injection hw with h'
        exact h'.symm
      rw [hev] at hne
      exact hne hstrip
  have hsafe : (f, v) ∈ (planUpdate mapping names sd existing).safe := by
    rw [hplan]
    apply mem_safeUpdates_iff.mpr
    refine ⟨hmem', ?_, hemp⟩
    cases hcon : (List.map FieldConflict.field_name
        (detect_conflicts (map_csv_fields_to_feishu mapping names sd.csv_all_fields).mapped
          existing.fields sd.user_id sd.nickname)).contains f
    · rfl
    · exfalso
      have : f ∈ List.map FieldConflict.field_name
          (detect_conflicts (map_csv_fields_to_feishu mapping names sd.csv_all_fields).mapped
            existing.fields sd.user_id sd.nickname) := List.elem_iff.mp hcon
      obtain ⟨c, hcmem, hcf⟩ := List.mem_map.mp this
      have := hnoc c (by rw [hplan]; exact hcmem)
      exact this hcf
  refine ⟨hsafe, ?_, hnoc, ?_⟩
  · apply alistGet_update_mem _ hsafe
    rw [hplan]
    exact safe_keys_nodup (mapCsv_mapped_keys_nodup mapping names sd.csv_all_fields)
  · unfold update_student_if_needed
    have hnonempty : ((planUpdate mapping names sd existing).safe.isEmpty) = false := by
      rw [List.isEmpty_eq_false_iff_exists_mem]
      exact ⟨(f, v), hsafe⟩
    dsimp only
    rw [hnonempty]
    simp [hupd]

/-- C2 witness: an existing record whose `城市` field is whitespace-only is
filled in with the candidate value. -/
theorem claim_C2_witness :
    ((("城市", FVal.str "Beijing") ∈
      (planUpdate [("城市", "城市")] ["城市"]
        ⟨"u1", "Alice", "", [("城市", "Beijing")]⟩
        ⟨"recA", [("城市", FVal.str "  ")]⟩).new_fields) ∧
     (alistGet ([("城市", FVal.str "  ")] : Fields) "城市" = some (FVal.str "  ") ∧
      pyStrip "  " = "")) ∧
    (("城市", FVal.str "Beijing") ∈ (planUpdate [("城市", "城市")] ["城市"]
        ⟨"u1", "Alice", "", [("城市", "Beijing")]⟩
        ⟨"recA", [("城市", FVal.str "  ")]⟩).safe ∧
      alistGet (alistUpdate [("城市", FVal.str "  ")]
          (planUpdate [("城市", "城市")] ["城市"]
            ⟨"u1", "Alice", "", [("城市", "Beijing")]⟩
            ⟨"recA", [("城市", FVal.str "  ")]⟩).safe) "城市"
        = some (FVal.str "Beijing") ∧
      (∀ c ∈ (planUpdate [("城市", "城市")] ["城市"]
          ⟨"u1", "Alice", "", [("城市", "Beijing")]⟩
          ⟨"recA", [("城市", FVal.str "  ")]⟩).conflicts, c.field_name ≠ "城市") ∧
      (update_student_if_needed [("城市", "城市")] ["城市"] (fun _ => true) true
        ⟨"u1", "Alice", "", [("城市", "Beijing")]⟩ "recA"
        ⟨"recA", [("城市", FVal.str "  ")]⟩ (initSync [] [])).1 = true) :=
  ⟨⟨by decide, by decide, by decide⟩,
   claim_C2 [("城市", "城市")] ["城市"] (fun _ => true) true
     ⟨"u1", "Alice", "", [("城市", "Beijing")]⟩ "recA"
     ⟨"recA", [("城市", FVal.str "  ")]⟩ (initSync [] [])
     "城市" (FVal.str "Beijing") rfl (by decide)
     (Or.inr ⟨"  ", by decide, by decide⟩)⟩

/-! ## Claim C6 -/

/-- C6: `get_token` returns the cached token and posts no auth request when a
cached token exists with more than 300 seconds of remaining lifetime;
otherwise it refreshes, returning the response token, recording the expiry
instant as `now + expire`, and posting exactly one request carrying the fixed
app id and secret. -/
theorem claim_C6 (appId appSecret : String) (now : Int) (resp : AuthResponse)
    (st : TokenState) :
    (∀ tok, st.access_token = some tok → 300 < st.expire_time - now →
      get_token appId appSecret now resp st = ⟨tok, st, []⟩) ∧
    ((st.access_token = none ∨ st.expire_time - now ≤ 300) →
      get_token appId appSecret now resp st =
        ⟨resp.app_access_token, ⟨some resp.app_access_token, now + resp.expire⟩,
         [(appId, appSecret)]⟩) := by
  constructor
  · intro tok htok hlife
    unfold get_token
    rw [htok]
    have hcond : now < st.expire_time - 300 := by omega
    dsimp only
    rw [if_pos hcond]
  · intro h
    unfold get_token
    rcases h with hn | hexp
    · rw [hn]
      rfl
    · cases htok : st.access_token with
      | none => rfl
      | some tok =>
        have hcond : ¬now < st.expire_time - 300 := by omega
        dsimp only
        rw [if_neg hcond, if_neg hcond]
        rfl

/-- C6 witness: a fresh cached token is returned untouched; a stale one
triggers a refresh with the fixed credentials. -/
theorem claim_C6_witness :
    ((⟨some "t1", 1000⟩ : TokenState).access_token = some "t1" ∧
      (300 : Int) < (1000 : Int) - 100 ∧
      get_token "app" "sec" 100 ⟨"t2", 7200⟩ ⟨some "t1", 1000⟩ =
        ⟨"t1", ⟨some "t1", 1000⟩, []⟩) ∧
    (((1000 : Int) - 800 ≤ 300) ∧
      get_token "app" "sec" 800 ⟨"t2", 7200⟩ ⟨some "t1", 1000⟩ =
        ⟨"t2", ⟨some "t2", 8000⟩, [("app", "sec")]⟩) :=
  ⟨⟨rfl, by decide,
    (claim_C6 "app" "sec" 100 ⟨"t2", 7200⟩ ⟨some "t1", 1000⟩).1 "t1" rfl (by decide)⟩,
   ⟨by decide,
    (claim_C6 "app" "sec" 800 ⟨"t2", 7200⟩ ⟨some "t1", 1000⟩).2 (Or.inr (by decide))⟩⟩

/-! ## Claim C10 -/

/-- C10: `format_date_field` is total — it is a plain function returning an
integer millisecond timestamp for every input string (the Python body wraps
everything in `try`/`except` and falls back) — and when the string matches
none of the four supported formats it silently returns the current time, so a
malformed date is stamped with the run's date; a matching string is converted
independently of the current time. The closing conjuncts anchor the model:
a valid date, a month out of range, and a day invalid for its month. -/
theorem claim_C10 (tzOffSec nowMillis : Int) (s : String) :
    (parseAnyDateFormat s = none →
      format_date_field tzOffSec nowMillis s = nowMillis) ∧
    (∀ p, parseAnyDateFormat s = some p →
      format_date_field tzOffSec nowMillis s = toTimestampMillis tzOffSec p) ∧
    format_date_field 0 nowMillis "2024-01-15" = 1705276800000 ∧
    format_date_field tzOffSec nowMillis "2024-13-01" = nowMillis ∧
    format_date_field tzOffSec nowMillis "2024-04-31" = nowMillis := by
  refine ⟨?_, ?_, ?_, ?_, ?_⟩
  · intro h
    unfold format_date_field
    rw [h]
  · intro p h
    unfold format_date_field
    rw [h]
  · have h : parseAnyDateFormat "2024-01-15" = some ⟨2024, 1, 15, 0, 0, 0⟩ := by decide
    unfold format_date_field
    rw [h]
    dsimp only
    decide
  · have h : parseAnyDateFormat "2024-13-01" = none := by decide
    unfold format_date_field
    rw [h]
  · have h : parseAnyDateFormat "2024-04-31" = none := by decide
    unfold format_date_field
    rw [h]

/-- C10 witness: an arbitrary malformed string falls back to the current
time. -/
theorem claim_C10_witness :
    parseAnyDateFormat "garbage" = none ∧
    format_date_field 28800 999 "garbage" = 999 :=
  ⟨by decide, (claim_C10 28800 999 "garbage").1 (by decide)⟩

/-! ## Claim C8 -/

/-- C8: immediately after a successful remote create with the cache loaded,
`_create_new_student` returns the remote identifier assigned by the store and
a `get_student` cache lookup for the same natural key — a pure dictionary
access with no remote call — returns the newly created record carrying that
identifier and the created fields. -/
theorem claim_C8 (mapping : List (String × String)) (names : List String)
    (createOk : String → Bool) (sd : StudentData) (s : SyncOutcome)
    (hok : createOk sd.user_id = true) :
    (create_new_student mapping names createOk true sd s).1 =
      some ("rec" ++ toString s.nextId) ∧
    get_student (create_new_student mapping names createOk true sd s).2.cache sd.user_id =
      some ⟨"rec" ++ toString s.nextId, (buildCreateFields mapping names sd).1⟩ := by
  unfold create_new_student
  dsimp only
  rw [if_pos hok]
  dsimp only
  refine ⟨rfl, ?_⟩
  unfold get_student
  rw [if_pos rfl, alistGet_set_self]
  rfl

/-- C8 witness: a concrete create is immediately visible in the cache under
its natural key with the assigned record id. -/
theorem claim_C8_witness :
    ((fun _ : String => true) "u9" = true) ∧
    ((create_new_student [] [] (fun _ => true) true ⟨"u9", "Bob", "", []⟩
        (initSync [] [])).1 = some ("rec" ++ toString (initSync [] []).nextId) ∧
      get_student (create_new_student [] [] (fun _ => true) true ⟨"u9", "Bob", "", []⟩
          (initSync [] [])).2.cache "u9" =
        some ⟨"rec" ++ toString (initSync [] []).nextId,
          (buildCreateFields [] [] ⟨"u9", "Bob", "", []⟩).1⟩) :=
  ⟨rfl, claim_C8 [] [] (fun _ => true) ⟨"u9", "Bob", "", []⟩ (initSync [] []) rfl⟩

/-! ## Claim C4 -/

theorem resolveGroup_scans (updOk : String → Bool) (table : List Record)
    (o : ResolveOutcome) (g : String × List SelectedConflict) :
    (resolveGroup updOk table o g).scans = o.scans + 1 := by
  unfold resolveGroup
  dsimp only
  repeat' split
  all_goals rfl

theorem resolveGroup_errors_mono (updOk : String → Bool) (table : List Record)
    (o : ResolveOutcome) (g : String × List SelectedConflict) :
    ∃ e, (resolveGroup updOk table o g).errors = o.errors ++ e := by
  unfold resolveGroup
  dsimp only
  repeat' split
  all_goals first
    | exact ⟨_, rfl⟩
    | exact ⟨[], (List.append_nil _).symm⟩

theorem resolveGroup_updates_mono (updOk : String → Bool) (table : List Record)
    (o : ResolveOutcome) (g : String × List SelectedConflict) :
    ∃ u, (resolveGroup updOk table o g).updates = o.updates ++ u := by
  unfold resolveGroup
  dsimp only
  repeat' split
  all_goals first
    | exact ⟨_, rfl⟩
    | exact ⟨[], (List.append_nil _).symm⟩

theorem resolve_fold_errors_mono (updOk : String → Bool) (table : List Record)
    (gs : List (String × List SelectedConflict)) (o : ResolveOutcome) (x : String)
    (hx : x ∈ o.errors) :
    x ∈ (gs.foldl (resolveGroup updOk table) o).errors := by
  induction gs generalizing o with
  | nil => exact hx
  | cons g gs ih =>
    rw [List.foldl_cons]
    apply ih
    obtain ⟨e, he⟩ := resolveGroup_errors_mono updOk table o g
    rw [he]
    exact List.mem_append_left _ hx

theorem resolve_fold_updates_mono (updOk : String → Bool) (table : List Record)
    (gs : List (String × List SelectedConflict)) (o : ResolveOutcome)
    (x : String × Fields) (hx : x ∈ o.updates) :
    x ∈ (gs.foldl (resolveGroup updOk table) o).updates := by
  induction gs generalizing o with
  | nil => exact hx
  | cons g gs ih =>
    rw [List.foldl_cons]
    apply ih
    obtain ⟨u, hu⟩ := resolveGroup_updates_mono updOk table o g
    rw [hu]
    exact List.mem_append_left _ hx

theorem resolve_fold_scans (updOk : String → Bool) (table : List Record)
    (gs : List (String × List SelectedConflict)) (o : ResolveOutcome) :
    (gs.foldl (resolveGroup updOk table) o).scans = o.scans + gs.length := by
  induction gs generalizing o with
  | nil => rfl
  | cons g gs ih =>
    rw [List.foldl_cons, ih, resolveGroup_scans]
    simp only [List.length_cons]
    omega

theorem resolve_fold_mem (updOk : String → Bool) (table : List Record)
    (hok : ∀ uid, updOk uid = true)
    (gs : List (String × List SelectedConflict)) (o : ResolveOutcome) :
    ∀ g ∈ gs,
      (find_user_record table g.1 = none →
        ("用户" ++ g.1 ++ "不存在") ∈ (gs.foldl (resolveGroup updOk table) o).errors) ∧
      (∀ r, find_user_record table g.1 = some r →
        (r.record_id, conflictUpdateFields g.2) ∈
          (gs.foldl (resolveGroup updOk table) o).updates) := by
  induction gs generalizing o with
  | nil =>
    intro g hg
    cases hg
  | cons g0 gs ih =>
    intro g hg
    rw [List.foldl_cons]
    rcases List.mem_cons.mp hg with he | hm
    · subst he
      constructor
      · intro hn
        apply resolve_fold_errors_mono
        have hval : (resolveGroup updOk table o g).errors =
            o.errors ++ ["用户" ++ g.1 ++ "不存在"] := by
          unfold resolveGroup
          dsimp only
          rw [hn]
        rw [hval]
        exact List.mem_append_right _ (List.mem_singleton.mpr rfl)
      · intro r hr
        apply resolve_fold_updates_mono
        have hval : (resolveGroup updOk table o g).updates =
            o.updates ++ [(r.record_id, conflictUpdateFields g.2)] := by
          unfold resolveGroup
          dsimp only
          rw [hr]
          dsimp only
          rw [if_pos (hok g.1)]
        rw [hval]
        exact List.mem_append_right _ (List.mem_singleton.mpr rfl)
    · exact ih (resolveGroup updOk table o g0) g hm

/-- C4 counterexample: the claim says a full-table scan happens only when the
natural key is absent from the cache, but `_find_user_record` never consults
the cache. Here the cache holds key `u1` (a `get_student` lookup succeeds),
yet resolving one selected conflict for `u1` still performs one full-table
scan. -/
theorem claim_C4_counterexample :
    (get_student
        [("u1", ⟨"recA", [("用户ID", FVal.str "u1"), ("城市", FVal.str "Shanghai")]⟩)]
        "u1").isSome = true ∧
    (update_selected_conflicts (fun _ => true) true
        [⟨"recA", [("用户ID", FVal.str "u1"), ("城市", FVal.str "Shanghai")]⟩]
        [⟨"u1", "城市", FVal.str "Beijing"⟩]).2.scans = 1 := by
  decide

/-- C4 (amended): `update_selected_conflicts` groups the operator-approved
conflicts by natural key and resolves every key by a full client-side table
scan — one scan per key, whether or not the key is cached; the cache is never
consulted — then issues one update per resolved key applying exactly the
operator-approved field values, with no conflict re-check (the update is
issued for any state of the remote record, as the quantification over `table`
shows); an unresolved key is reported in the error list. -/
theorem claim_C4 (updOk : String → Bool) (table : List Record)
    (selected : List SelectedConflict) (hok : ∀ uid, updOk uid = true) :
    (update_selected_conflicts updOk true table selected).1 = true ∧
    (update_selected_conflicts updOk true table selected).2.scans =
      (groupByUser selected).length ∧
    ∀ g ∈ groupByUser selected,
      (find_user_record table g.1 = none →
        ("用户" ++ g.1 ++ "不存在") ∈
          (update_selected_conflicts updOk true table selected).2.errors) ∧
      (∀ r, find_user_record table g.1 = some r →
        (r.record_id, conflictUpdateFields g.2) ∈
          (update_selected_conflicts updOk true table selected).2.updates) := by
  have hu : update_selected_conflicts updOk true table selected =
      (true, (groupByUser selected).foldl (resolveGroup updOk table) ⟨0, 0, [], [], 0⟩) := rfl
  rw [hu]
  refine ⟨rfl, ?_, ?_⟩
  · rw [resolve_fold_scans]
    show 0 + (groupByUser selected).length = (groupByUser selected).length
    rw [Nat.zero_add]
  · exact resolve_fold_mem updOk table hok (groupByUser selected) ⟨0, 0, [], [], 0⟩

/-- C4 witness: one selected conflict against a one-record table is resolved
by one scan and one forced update carrying exactly the approved value. -/
theorem claim_C4_witness :
    (∀ uid : String, (fun _ : String => true) uid = true) ∧
    ((update_selected_conflicts (fun _ => true) true
        [⟨"recA", [("用户ID", FVal.str "u1"), ("城市", FVal.str "Shanghai")]⟩]
        [⟨"u1", "城市", FVal.str "Beijing"⟩]).1 = true ∧
     (update_selected_conflicts (fun _ => true) true
        [⟨"recA", [("用户ID", FVal.str "u1"), ("城市", FVal.str "Shanghai")]⟩]
        [⟨"u1", "城市", FVal.str "Beijing"⟩]).2.scans =
        (groupByUser [⟨"u1", "城市", FVal.str "Beijing"⟩]).length ∧
     ∀ g ∈ groupByUser [⟨"u1", "城市", FVal.str "Beijing"⟩],
      (find_user_record [⟨"recA", [("用户ID", FVal.str "u1"), ("城市", FVal.str "Shanghai")]⟩] g.1 = none →
        ("用户" ++ g.1 ++ "不存在") ∈
          (update_selected_conflicts (fun _ => true) true
            [⟨"recA", [("用户ID", FVal.str "u1"), ("城市", FVal.str "Shanghai")]⟩]
            [⟨"u1", "城市", FVal.str "Beijing"⟩]).2.errors) ∧
      (∀ r, find_user_record [⟨"recA", [("用户ID", FVal.str "u1"), ("城市", FVal.str "Shanghai")]⟩] g.1 = some r →
        (r.record_id, conflictUpdateFields g.2) ∈
          (update_selected_conflicts (fun _ => true) true
            [⟨"recA", [("用户ID", FVal.str "u1"), ("城市", FVal.str "Shanghai")]⟩]
            [⟨"u1", "城市", FVal.str "Beijing"⟩]).2.updates)) :=
  ⟨fun _ => rfl,
   claim_C4 (fun _ => true)
     [⟨"recA", [("用户ID", FVal.str "u1"), ("城市", FVal.str "Shanghai")]⟩]
     [⟨"u1", "城市", FVal.str "Beijing"⟩] (fun _ => rfl)⟩

/-! ## Claim C9 -/

theorem mapFieldStep_skipped_mono (mapping : List (String × String)) (names : List String)
    (acc : MapDelta) (kv : String × String) :
    ∃ e, (mapFieldStep mapping names acc kv).skipped = acc.skipped ++ e := by
  unfold mapFieldStep mapMatched
  dsimp only
  repeat' split
  all_goals first
    | exact ⟨_, rfl⟩
    | exact ⟨[], (List.append_nil _).symm⟩

theorem mapCsv_fold_skipped_mem (mapping : List (String × String)) (names : List String)
    (csv : List (String × String)) (acc : MapDelta) (x : String)
    (hx : x ∈ acc.skipped) :
    x ∈ (csv.foldl (mapFieldStep mapping names) acc).skipped := by
  induction csv generalizing acc with
  | nil => exact hx
  | cons kv csv ih =>
    rw [List.foldl_cons]
    apply ih
    obtain ⟨e, he⟩ := mapFieldStep_skipped_mono mapping names acc kv
    rw [he]
    exact List.mem_append_left _ hx

theorem mapFieldStep_skipped_unmapped (mapping : List (String × String))
    (names : List String) (acc : MapDelta) (c value : String)
    (hval : pyStrip value ≠ "") (hcore : c ∉ coreCsvNames) :
    (alistGet mapping c = none ∨ alistGet mapping c = some "" →
      (c ++ " (无映射规则)") ∈ (mapFieldStep mapping names acc (c, value)).skipped) ∧
    (∀ fdest, alistGet mapping c = some fdest → fdest ≠ "" → fdest ∉ names →
      (c ++ " (表格中无此字段: " ++ fdest ++ ")") ∈
        (mapFieldStep mapping names acc (c, value)).skipped) := by
  have hvne : value ≠ "" := by
    intro hc
    apply hval
    rw [hc]
    rfl
  have hcond : ¬((value == "" || pyStrip value == "") = true) := by
    simp [hvne, hval]
  unfold mapFieldStep
  dsimp only
  rw [if_neg hcond]
  constructor
  · intro h
    rcases h with hn | he
    · rw [hn]
      dsimp only
      rw [if_neg hcore]
      exact List.mem_append_right _ (List.mem_singleton.mpr rfl)
    · rw [he]
      dsimp only
      have h3 : ¬((("" : String) ≠ "") ∧ ("" : String) ∈ names) := by
        intro hc
        exact hc.1 rfl
      rw [if_neg h3, if_neg hcore, if_neg (by intro hc; exact hc rfl)]
      exact List.mem_append_right _ (List.mem_singleton.mpr rfl)
  · intro fdest hf hne hnames
    rw [hf]
    dsimp only
    have h3 : ¬(fdest ≠ "" ∧ fdest ∈ names) := by
      intro hc
      exact hnames hc.2
    rw [if_neg h3, if_neg hcore, if_pos hne]
    exact List.mem_append_right _ (List.mem_singleton.mpr rfl)

/-- C9 counterexample: the import column `phone` carries a non-empty value
and has no mapping rule, yet no skipped entry is recorded, because the column
name is on the hard-coded core-name exclusion list
(`elif csv_field not in ["user_id", "nickname", "phone", "course",
"learning_date"]`). -/
theorem claim_C9_counterexample :
    alistGet DEFAULT_FIELD_MAPPING "phone" = none ∧
    pyStrip "123" ≠ "" ∧
    "phone" ∈ coreCsvNames ∧
    (map_csv_fields_to_feishu DEFAULT_FIELD_MAPPING ["用户ID"]
      [("phone", "123")]).skipped = [] := by
  decide

/-- C9 (amended): for every import column with a non-blank value that is not
mapped to an existing destination field — no mapping rule (or an empty one),
or a mapped name absent from the destination schema — and whose name is not
one of the five hard-coded core column names (`user_id`, `nickname`, `phone`,
`course`, `learning_date`, which are skipped silently), an entry naming the
column with the reason is appended to the skipped-fields list; the mapper has
no error output, so this is never an error. -/
theorem claim_C9 (mapping : List (String × String)) (names : List String)
    (csv : List (String × String)) (c value : String)
    (hmem : (c, value) ∈ csv)
    (hval : pyStrip value ≠ "")
    (hcore : c ∉ coreCsvNames) :
    (alistGet mapping c = none ∨ alistGet mapping c = some "" →
      (c ++ " (无映射规则)") ∈ (map_csv_fields_to_feishu mapping names csv).skipped) ∧
    (∀ fdest, alistGet mapping c = some fdest → fdest ≠ "" → fdest ∉ names →
      (c ++ " (表格中无此字段: " ++ fdest ++ ")") ∈
        (map_csv_fields_to_feishu mapping names csv).skipped) := by
  obtain ⟨l1, l2, hsplit⟩ := List.append_of_mem hmem
  have hstep := mapFieldStep_skipped_unmapped mapping names
    (l1.foldl (mapFieldStep mapping names) emptyMapDelta) c value hval hcore
  constructor
  · intro h
    unfold map_csv_fields_to_feishu
    rw [hsplit, List.foldl_append, List.foldl_cons]
    exact mapCsv_fold_skipped_mem mapping names l2 _ _ (hstep.1 h)
  · intro fdest hf hne hnames
    unfold map_csv_fields_to_feishu
    rw [hsplit, List.foldl_append, List.foldl_cons]
    exact mapCsv_fold_skipped_mem mapping names l2 _ _ (hstep.2 fdest hf hne hnames)

/-- C9 witness: an unmapped non-core column `junk` yields a "no mapping rule"
skipped entry. -/
theorem claim_C9_witness :
    (("junk", "x") ∈ [("junk", "x")] ∧ pyStrip "x" ≠ "" ∧ "junk" ∉ coreCsvNames ∧
      alistGet DEFAULT_FIELD_MAPPING "junk" = none) ∧
    ("junk" ++ " (无映射规则)") ∈
      (map_csv_fields_to_feishu DEFAULT_FIELD_MAPPING ["用户ID"]
        [("junk", "x")]).skipped :=
  ⟨⟨by decide, by decide, by decide, by decide⟩,
   (claim_C9 DEFAULT_FIELD_MAPPING ["用户ID"] [("junk", "x")] "junk" "x"
     (by decide) (by decide) (by decide)).1 (Or.inl (by decide))⟩

/-! ## Claim C5 -/

/-- The phone branch of `mapMatched` on a non-blank, non-sentinel value with
at least one digit: write the digit-only form, log a length warning when the
digit count is implausible. -/
theorem mapMatched_phone (acc : MapDelta) (csvField value : String)
    (hne : pyStrip value ≠ "") (hsent : isSentinel (pyStrip value) = false)
    (hd : stripDigits (pyStrip value) ≠ "") :
    mapMatched acc csvField value "手机号" =
      { acc with
        mapped := alistSet acc.mapped "手机号" (FVal.str (stripDigits (pyStrip value))),
        updated := acc.updated ++ [csvField ++ " -> " ++ "手机号"],
        logWarn := acc.logWarn ++
          (if (stripDigits (pyStrip value)).length < 7 ||
              (stripDigits (pyStrip value)).length > 15
           then [phoneLenWarn (stripDigits (pyStrip value))] else []) } := by
  unfold mapMatched
  dsimp only
  have h1 : ¬((pyStrip value == "" || isSentinel (pyStrip value)) = true) := by
    simp [hne, hsent]
  rw [if_neg h1, if_neg (by decide : ¬((("手机号" : String) == "年龄") = true)),
    if_pos (by decide : (("手机号" : String) == "手机号") = true),
    if_neg (by simpa using hd)]

/-- The unique-student row and run of the C5 scenario: one import row against
an empty remote table, student cache loaded and empty. -/
def c5Row : StudentData :=
  ⟨"u1", "Alice", "138-0000-0000",
   [("用户ID", "u1"), ("昵称", "Alice"), ("手机号", "138-0000-0000")]⟩

/-- The C5 scenario run. -/
def c5Run : SyncOutcome :=
  sync_students DEFAULT_FIELD_MAPPING ["用户ID", "昵称", "手机号"]
    (fun _ => true) (fun _ => true) true [c5Row] [] []

/-- C5: phone values are reduced to their digit-only form before being
written — in the field-mapping path used by updates and in the create path —
and an implausible digit count (below 7 or above 15) is logged as a warning
while the value is still written. In particular, the scenario of one import
row `{id: u1, name: Alice, phone: 138-0000-0000}` against an empty remote
table yields exactly one create whose `手机号` field equals `13800000000`,
no updates and no conflicts. -/
theorem claim_C5 (mapping : List (String × String)) (names : List String)
    (uid nick p : String)
    (hne : pyStrip p ≠ "") (hsent : isSentinel (pyStrip p) = false)
    (hd : stripDigits (pyStrip p) ≠ "") (hpd : stripDigits p ≠ "") :
    ((map_csv_fields_to_feishu [("手机号", "手机号")] ["手机号"] [("手机号", p)]).mapped =
        [("手机号", FVal.str (stripDigits (pyStrip p)))] ∧
      ((stripDigits (pyStrip p)).length < 7 ∨ 15 < (stripDigits (pyStrip p)).length →
        phoneLenWarn (stripDigits (pyStrip p)) ∈
          (map_csv_fields_to_feishu [("手机号", "手机号")] ["手机号"]
            [("手机号", p)]).logWarn)) ∧
    (alistGet (buildCreateFields mapping names ⟨uid, nick, p, []⟩).1 "手机号" =
        some (FVal.str (stripDigits p)) ∧
      ((stripDigits p).length < 7 ∨ 15 < (stripDigits p).length →
        phoneLenWarn (stripDigits p) ∈
          (buildCreateFields mapping names ⟨uid, nick, p, []⟩).2.2)) ∧
    c5Run.new_students = 1 ∧
    c5Run.updated_students = 0 ∧
    c5Run.conflicts = [] ∧
    c5Run.remote =
      [⟨"rec0", [("用户ID", FVal.str "u1"), ("昵称", FVal.str "Alice"),
                 ("手机号", FVal.str "13800000000")]⟩] := by
  have hp : p ≠ "" := by
    intro hc
    apply hne
    rw [hc]
    rfl
  have hmap : map_csv_fields_to_feishu [("手机号", "手机号")] ["手机号"] [("手机号", p)] =
      mapMatched emptyMapDelta "手机号" p "手机号" := by
    unfold map_csv_fields_to_feishu
    rw [List.foldl_cons, List.foldl_nil]
    unfold mapFieldStep
    dsimp only
    rw [if_neg (by simp [hp, hne])]
    have hget : alistGet [("手机号", "手机号")] "手机号" = some "手机号" := by decide
    rw [hget]
    dsimp only
    rw [if_pos (by decide : ("手机号" : String) ≠ "" ∧ ("手机号" : String) ∈ ["手机号"])]
  refine ⟨?_, ?_, by decide, by decide, by decide, by decide⟩
  · rw [hmap, mapMatched_phone emptyMapDelta "手机号" p hne hsent hd]
    constructor
    · rfl
    · intro hlen
      have hcond : ((stripDigits (pyStrip p)).length < 7 ||
          (stripDigits (pyStrip p)).length > 15) = true := by
        rcases hlen with h | h <;> simp [h]
      dsimp only
      rw [hcond]
      exact List.mem_append_right _ (List.mem_singleton.mpr rfl)
  · unfold buildCreateFields createBaseFields
    dsimp only
    rw [if_pos hp, if_neg hpd]
    dsimp only
    constructor
    · show alistGet (alistSet [("用户ID", FVal.str uid), ("昵称", FVal.str nick)]
          "手机号" (FVal.str (stripDigits p))) "手机号" = some (FVal.str (stripDigits p))
      exact alistGet_set_self _ _ _
    · intro hlen
      have hcond : (decide ((stripDigits p).length < 7) ||
          decide ((stripDigits p).length > 15)) = true := by
        rcases hlen with h | h <;> simp [h]
      show phoneLenWarn (stripDigits p) ∈
        (if (decide ((stripDigits p).length < 7) ||
            decide ((stripDigits p).length > 15)) = true
         then [phoneLenWarn (stripDigits p)] else [])
      rw [if_pos hcond]
      exact List.mem_singleton.mpr rfl

/-- C5 witness: the scenario phone, plus a short phone exercising the length
warning. -/
theorem claim_C5_witness :
    (pyStrip "138-0000-0000" ≠ "" ∧
      isSentinel (pyStrip "138-0000-0000") = false ∧
      stripDigits (pyStrip "138-0000-0000") ≠ "" ∧
      stripDigits "138-0000-0000" ≠ "") ∧
    (alistGet (buildCreateFields DEFAULT_FIELD_MAPPING ["手机号"]
        ⟨"u1", "Alice", "138-0000-0000", []⟩).1 "手机号" =
      some (FVal.str (stripDigits "138-0000-0000"))) ∧
    phoneLenWarn (stripDigits "12-34") ∈
      (buildCreateFields DEFAULT_FIELD_MAPPING ["手机号"]
        ⟨"u2", "Ann", "12-34", []⟩).2.2 :=
  ⟨⟨by decide, by decide, by decide, by decide⟩,
   (claim_C5 DEFAULT_FIELD_MAPPING ["手机号"] "u1" "Alice" "138-0000-0000"
     (by decide) (by decide) (by decide) (by decide)).2.1.1,
   (claim_C5 DEFAULT_FIELD_MAPPING ["手机号"] "u2" "Ann" "12-34"
     (by decide) (by decide) (by decide) (by decide)).2.1.2 (Or.inl (by decide))⟩

/-! ## Claim C7: loop lemmas -/

theorem update_student_errors_mono (mapping : List (String × String)) (names : List String)
    (updOk : String → Bool) (cacheLoaded : Bool) (sd : StudentData)
    (record_id : String) (existing : Record) (s : SyncOutcome) :
    ∃ e, (update_student_if_needed mapping names updOk cacheLoaded sd record_id
      existing s).2.errors = s.errors ++ e := by
  unfold update_student_if_needed
  dsimp only
  repeat' split
  all_goals first
    | exact ⟨_, rfl⟩
    | exact ⟨[], (List.append_nil _).symm⟩

theorem create_new_student_processed (mapping : List (String × String)) (names : List String)
    (createOk : String → Bool) (cacheLoaded : Bool) (sd : StudentData) (s : SyncOutcome) :
    (create_new_student mapping names createOk cacheLoaded sd s).2.processed_records =
      s.processed_records := by
  unfold create_new_student
  dsimp only
  split <;> rfl

theorem create_new_student_errors_ok (mapping : List (String × String)) (names : List String)
    (createOk : String → Bool) (cacheLoaded : Bool) (sd : StudentData) (s : SyncOutcome)
    (h : createOk sd.user_id = true) :
    (create_new_student mapping names createOk cacheLoaded sd s).2.errors = s.errors := by
  unfold create_new_student
  dsimp only
  rw [if_pos h]
  rfl

theorem create_new_student_errors_fail (mapping : List (String × String)) (names : List String)
    (createOk : String → Bool) (cacheLoaded : Bool) (sd : StudentData) (s : SyncOutcome)
    (h : createOk sd.user_id = false) :
    (create_new_student mapping names createOk cacheLoaded sd s).2.errors =
      s.errors ++ ["创建学员" ++ sd.user_id ++ "失败"] := by
  unfold create_new_student
  dsimp only
  rw [if_neg (by simp [h])]
  rfl

theorem create_new_student_errors_mono (mapping : List (String × String)) (names : List String)
    (createOk : String → Bool) (cacheLoaded : Bool) (sd : StudentData) (s : SyncOutcome) :
    ∃ e, (create_new_student mapping names createOk cacheLoaded sd s).2.errors =
      s.errors ++ e := by
  cases h : createOk sd.user_id with
  | true =>
    refine ⟨[], ?_⟩
    rw [create_new_student_errors_ok mapping names createOk cacheLoaded sd s h]
    exact (List.append_nil _).symm
  | false =>
    exact ⟨_, create_new_student_errors_fail mapping names createOk cacheLoaded sd s h⟩

theorem processStudent_absent (mapping : List (String × String)) (names : List String)
    (createOk updOk : String → Bool) (cacheLoaded : Bool)
    (exMap : List (String × Record)) (s : SyncOutcome)
    (idMap : List (String × String)) (sd : StudentData)
    (hA : alistGet idMap sd.user_id = none) :
    processStudent mapping names createOk updOk cacheLoaded exMap (s, idMap) sd =
      ({ (create_new_student mapping names createOk cacheLoaded sd s).2 with
          processed_records :=
            (create_new_student mapping names createOk cacheLoaded sd s).2.processed_records + 1 },
       match (create_new_student mapping names createOk cacheLoaded sd s).1 with
       | some rid => alistSet idMap sd.user_id rid
       | none => idMap) := by
  unfold processStudent
  dsimp only
  rw [hA]

theorem processStudent_absent_idMap_ne (mapping : List (String × String)) (names : List String)
    (createOk updOk : String → Bool) (cacheLoaded : Bool)
    (exMap : List (String × Record)) (s : SyncOutcome)
    (idMap : List (String × String)) (sd : StudentData) (k : String)
    (hA : alistGet idMap sd.user_id = none) (hk : k ≠ sd.user_id) :
    alistGet (processStudent mapping names createOk updOk cacheLoaded exMap (s, idMap) sd).2 k
      = alistGet idMap k := by
  rw [processStudent_absent mapping names createOk updOk cacheLoaded exMap s idMap sd hA]
  dsimp only
  cases (create_new_student mapping names createOk cacheLoaded sd s).1 with
  | some rid => exact alistGet_set_ne hk
  | none => rfl

theorem processStudent_errors_mono (mapping : List (String × String)) (names : List String)
    (createOk updOk : String → Bool) (cacheLoaded : Bool)
    (exMap : List (String × Record)) (s : SyncOutcome)
    (idMap : List (String × String)) (sd : StudentData) :
    ∃ e, (processStudent mapping names createOk updOk cacheLoaded exMap (s, idMap) sd).1.errors
      = s.errors ++ e := by
  unfold processStudent
  dsimp only
  cases hid : alistGet idMap sd.user_id with
  | none =>
    dsimp only
    obtain ⟨e, he⟩ := create_new_student_errors_mono mapping names createOk cacheLoaded sd s
    exact ⟨e, he⟩
  | some rid =>
    cases hex : alistGet exMap sd.user_id with
    | none =>
      dsimp only
      exact ⟨_, rfl⟩
    | some ex =>
      dsimp only
      obtain ⟨e, he⟩ := update_student_errors_mono mapping names updOk cacheLoaded sd rid ex s
      refine ⟨e, ?_⟩
      by_cases hflag :
          (update_student_if_needed mapping names updOk cacheLoaded sd rid ex s).1 = true
      · rw [if_pos hflag]
        exact he
      · rw [if_neg hflag]
        exact he

theorem sync_fold_errors_mono (mapping : List (String × String)) (names : List String)
    (createOk updOk : String → Bool) (cacheLoaded : Bool)
    (exMap : List (String × Record)) (todo : List StudentData)
    (acc : SyncOutcome × List (String × String)) (x : String)
    (hx : x ∈ acc.1.errors) :
    x ∈ (todo.foldl (processStudent mapping names createOk updOk cacheLoaded exMap) acc).1.errors := by
  induction todo generalizing acc with
  | nil => exact hx
  | cons sd todo ih =>
    rw [List.foldl_cons]
    apply ih
    obtain ⟨e, he⟩ := processStudent_errors_mono mapping names createOk updOk cacheLoaded
      exMap acc.1 acc.2 sd
    rw [he]
    exact List.mem_append_left _ hx

/-- The all-new loop: when every student's key is absent from the id map and
the keys are distinct, every student is processed (counted), and every failed
create leaves its error entry. -/
theorem sync_loop_all_new (mapping : List (String × String)) (names : List String)
    (createOk updOk : String → Bool) (cacheLoaded : Bool)
    (exMap : List (String × Record)) (todo : List StudentData)
    (s : SyncOutcome) (idMap : List (String × String))
    (hnodup : (todo.map StudentData.user_id).Nodup)
    (habsent : ∀ sd ∈ todo, alistGet idMap sd.user_id = none) :
    (todo.foldl (processStudent mapping names createOk updOk cacheLoaded exMap)
      (s, idMap)).1.processed_records = s.processed_records + todo.length ∧
    ∀ sd ∈ todo, createOk sd.user_id = false →
      ("创建学员" ++ sd.user_id ++ "失败") ∈
        (todo.foldl (processStudent mapping names createOk updOk cacheLoaded exMap)
          (s, idMap)).1.errors := by
  induction todo generalizing s idMap with
  | nil =>
    refine ⟨rfl, ?_⟩
    intro sd hsd
    cases hsd
  | cons sd0 todo ih =>
    rw [List.map_cons, List.nodup_cons] at hnodup
    have hA : alistGet idMap sd0.user_id = none := habsent sd0 (List.mem_cons_self sd0 todo)
    rw [List.foldl_cons,
      processStudent_absent mapping names createOk updOk cacheLoaded exMap s idMap sd0 hA]
    have habsent' : ∀ sd ∈ todo,
        alistGet
          (match (create_new_student mapping names createOk cacheLoaded sd0 s).1 with
           | some rid => alistSet idMap sd0.user_id rid
           | none => idMap) sd.user_id = none := by
      intro sd hsd
      have hne : sd.user_id ≠ sd0.user_id := by
        intro hc
        exact hnodup.1 (hc ▸ List.mem_map_of_mem StudentData.user_id hsd)
      cases (create_new_student mapping names createOk cacheLoaded sd0 s).1 with
      | some rid =>
        dsimp only
        rw [alistGet_set_ne hne]
        exact habsent sd (List.mem_cons_of_mem sd0 hsd)
      | none => exact habsent sd (List.mem_cons_of_mem sd0 hsd)
    obtain ⟨hcount, herr⟩ := ih
      ({ (create_new_student mapping names createOk cacheLoaded sd0 s).2 with
          processed_records :=
            (create_new_student mapping names createOk cacheLoaded sd0 s).2.processed_records + 1 })
      (match (create_new_student mapping names createOk cacheLoaded sd0 s).1 with
       | some rid => alistSet idMap sd0.user_id rid
       | none => idMap)
      hnodup.2 habsent'
    constructor
    · rw [hcount]
      dsimp only
      rw [create_new_student_processed]
      simp only [List.length_cons]
      omega
    · intro sd hsd hfail
      rcases List.mem_cons.mp hsd with he | hm
      · subst he
        apply sync_fold_errors_mono
        dsimp only
        rw [create_new_student_errors_fail mapping names createOk cacheLoaded sd s hfail]
        exact List.mem_append_right _ (List.mem_singleton.mpr rfl)
      · exact herr sd hm hfail

/-- `_sync_students` against an empty cache: every student takes the create
path; the run processes all of them and converts each failed create into an
error entry. -/
theorem sync_students_empty_cache (mapping : List (String × String)) (names : List String)
    (createOk updOk : String → Bool) (cacheLoaded : Bool)
    (students : List StudentData) (remote : List Record)
    (hnodup : (students.map StudentData.user_id).Nodup) :
    (sync_students mapping names createOk updOk cacheLoaded students [] remote).processed_records
      = students.length ∧
    ∀ sd ∈ students, createOk sd.user_id = false →
      ("创建学员" ++ sd.user_id ++ "失败") ∈
        (sync_students mapping names createOk updOk cacheLoaded students [] remote).errors := by
  have hcached : (students.map StudentData.user_id).filterMap
      (alistGet ([] : List (String × Record))) = [] :=
    List.filterMap_eq_nil_iff.mpr (fun a _ => rfl)
  have hs : sync_students mapping names createOk updOk cacheLoaded students [] remote =
      (students.foldl
        (processStudent mapping names createOk updOk cacheLoaded (buildExMap []))
        (initSync [] remote, buildIdMap [])).1 := by
    unfold sync_students
    rw [hcached]
  rw [hs]
  obtain ⟨hcount, herr⟩ := sync_loop_all_new mapping names createOk updOk cacheLoaded
    (buildExMap []) students (initSync [] remote) (buildIdMap [])
    hnodup (fun sd _ => rfl)
  constructor
  · rw [hcount]
    show 0 + students.length = students.length
    rw [Nat.zero_add]
  · exact herr

/-- C7: a remote-API failure while creating or updating one entity is caught
at that entity, converted to an entry in the result's error list, and the
loop continues — every student is still processed and the run is reported as
a success through the same structured result; the run aborts before issuing
any remote mutation only on the precondition failures: CSV processing
failure and connection-test failure. -/
theorem claim_C7 (mapping : List (String × String)) (names : List String)
    (createOk updOk : String → Bool) (cacheLoaded : Bool)
    (students : List StudentData) (cache : List (String × Record))
    (remote : List Record) (e : String)
    (sd0 : StudentData) (record_id : String) (existing : Record) (s0 : SyncOutcome)
    (hnodup : (students.map StudentData.user_id).Nodup) :
    ((sync_csv_data mapping names createOk updOk cacheLoaded true
        (.failure e) cache remote).1.success = false ∧
      (sync_csv_data mapping names createOk updOk cacheLoaded true
        (.failure e) cache remote).2.requests = 0 ∧
      (sync_csv_data mapping names createOk updOk cacheLoaded true
        (.failure e) cache remote).2.remote = remote) ∧
    ((sync_csv_data mapping names createOk updOk cacheLoaded false
        (.parsed students) cache remote).1.success = false ∧
      (sync_csv_data mapping names createOk updOk cacheLoaded false
        (.parsed students) cache remote).2.requests = 0 ∧
      (sync_csv_data mapping names createOk updOk cacheLoaded false
        (.parsed students) cache remote).2.remote = remote) ∧
    ((sync_csv_data mapping names createOk updOk cacheLoaded true
        (.parsed students) [] remote).1.success = true ∧
      (sync_csv_data mapping names createOk updOk cacheLoaded true
        (.parsed students) [] remote).2.processed_records = students.length ∧
      ∀ sd ∈ students, createOk sd.user_id = false →
        ("创建学员" ++ sd.user_id ++ "失败") ∈
          (sync_csv_data mapping names createOk updOk cacheLoaded true
            (.parsed students) [] remote).2.errors) ∧
    ((planUpdate mapping names sd0 existing).safe ≠ [] → updOk sd0.user_id = false →
      (update_student_if_needed mapping names updOk cacheLoaded sd0 record_id
        existing s0).1 = false ∧
      ("更新学员" ++ sd0.user_id ++ "字段失败") ∈
        (update_student_if_needed mapping names updOk cacheLoaded sd0 record_id
          existing s0).2.errors) := by
  refine ⟨⟨rfl, rfl, rfl⟩, ⟨rfl, rfl, rfl⟩, ?_, ?_⟩
  · have hred : sync_csv_data mapping names createOk updOk cacheLoaded true
        (.parsed students) [] remote =
        (⟨true, "数据同步完成"⟩,
          sync_students mapping names createOk updOk cacheLoaded students [] remote) := rfl
    rw [hred]
    obtain ⟨hcount, herr⟩ := sync_students_empty_cache mapping names createOk updOk
      cacheLoaded students remote hnodup
    exact ⟨rfl, hcount, herr⟩
  · intro hsafe hupf
    unfold update_student_if_needed
    dsimp only
    have hne : ¬((planUpdate mapping names sd0 existing).safe.isEmpty = true) := by
      rw [List.isEmpty_iff]
      exact hsafe
    rw [if_neg hne, if_neg (by simp [hupf])]
    exact ⟨rfl, List.mem_append_right _ (List.mem_singleton.mpr rfl)⟩

/-- Concrete inputs for the C7 witness: `uA` creates fine, `uB`'s create is
rejected by the remote store; the update oracle always fails. -/
def c7Students : List StudentData := [⟨"uA", "A", "", []⟩, ⟨"uB", "B", "", []⟩]

/-- The C7 witness create oracle. -/
def c7CreateOk : String → Bool := fun uid => uid == "uA"

/-- The C7 witness student with a pending safe update. -/
def c7Sd : StudentData := ⟨"u1", "Alice", "", [("城市", "Beijing")]⟩

/-- The C7 witness existing record (empty `城市`). -/
def c7Existing : Record := ⟨"recA", []⟩

/-- C7 witness: the failed create for `uB` is recorded while the run
completes and processes both students, and a failed update is reported as an
error entry with `False`. -/
theorem claim_C7_witness :
    ((c7Students.map StudentData.user_id).Nodup ∧
      c7CreateOk "uB" = false ∧
      (planUpdate [("城市", "城市")] ["城市"] c7Sd c7Existing).safe ≠ [] ∧
      (fun _ : String => false) "u1" = false) ∧
    ((sync_csv_data [("城市", "城市")] ["城市"] c7CreateOk (fun _ => false) true true
        (.parsed c7Students) [] []).1.success = true ∧
      (sync_csv_data [("城市", "城市")] ["城市"] c7CreateOk (fun _ => false) true true
        (.parsed c7Students) [] []).2.processed_records = c7Students.length ∧
      ("创建学员" ++ "uB" ++ "失败") ∈
        (sync_csv_data [("城市", "城市")] ["城市"] c7CreateOk (fun _ => false) true true
          (.parsed c7Students) [] []).2.errors) ∧
    ((update_student_if_needed [("城市", "城市")] ["城市"] (fun _ => false) true c7Sd
        "recA" c7Existing (initSync [] [])).1 = false ∧
      ("更新学员" ++ "u1" ++ "字段失败") ∈
        (update_student_if_needed [("城市", "城市")] ["城市"] (fun _ => false) true c7Sd
          "recA" c7Existing (initSync [] [])).2.errors) := by
  have hmain := claim_C7 [("城市", "城市")] ["城市"] c7CreateOk (fun _ => false) true
    c7Students [] [] "err" c7Sd "recA" c7Existing (initSync [] []) (by decide)
  refine ⟨⟨by decide, by decide, by decide, rfl⟩, ?_, ?_⟩
  · exact ⟨hmain.2.2.1.1, hmain.2.2.1.2.1,
      hmain.2.2.1.2.2 ⟨"uB", "B", "", []⟩ (by decide) (by decide)⟩
  · exact hmain.2.2.2 (by decide) rfl

/-! ## Claim C3: further association-list and key-map lemmas -/

theorem alistGet_some_mem {α : Type} {d : List (String × α)} {k : String} {v : α}
    (h : alistGet d k = some v) : (k, v) ∈ d := by
  induction d with
  | nil => cases h
  | cons p d ih =>
    obtain ⟨k', v'⟩ := p
    rw [alistGet_cons] at h
    by_cases hk : k' = k
    · rw [if_pos hk] at h
      injection h with h'
      rw [← hk, ← h']
      exact List.mem_cons_self _ _
    · rw [if_neg hk] at h
      exact List.mem_cons_of_mem _ (ih h)

theorem alistGet_of_mem_nodup {α : Type} {d : List (String × α)} {k : String} {v : α}
    (hnd : (alistKeys d).Nodup) (hm : (k, v) ∈ d) : alistGet d k = some v := by
  induction d with
  | nil => cases hm
  | cons p d ih =>
    rw [alistKeys_cons, List.nodup_cons] at hnd
    rcases List.mem_cons.mp hm with he | hm'
    · rw [← he, alistGet_cons, if_pos rfl]
    · have hk : p.1 ≠ k := by
        intro hc
        apply hnd.1
        rw [hc]
        exact mem_keys_iff.mpr ⟨v, hm'⟩
      obtain ⟨k', v'⟩ := p
      rw [alistGet_cons, if_neg hk]
      exact ih hnd.2 hm'

theorem alistGet_set_isSome {α : Type} (d : List (String × α)) (k k' : String) (v : α)
    (h : (alistGet d k').isSome = true) : (alistGet (alistSet d k v) k').isSome = true := by
  by_cases hk : k' = k
  · rw [hk, alistGet_set_self]
    rfl
  · rw [alistGet_set_ne hk]
    exact h

theorem userKeyed_fold_spec {α : Type} (f : Record → α) (recs : List Record)
    (m : List (String × α)) (u : String) (v : α)
    (h : alistGet (recs.foldl (userKeyStep f) m) u = some v) :
    alistGet m u = some v ∨
      ∃ r ∈ recs, alistGet r.fields "用户ID" = some (FVal.str u) ∧ v = f r := by
  induction recs generalizing m with
  | nil => exact Or.inl h
  | cons r0 recs ih =>
    rw [List.foldl_cons] at h
    rcases ih (userKeyStep f m r0) h with hm | ⟨r, hr, hf, hv⟩
    · unfold userKeyStep at hm
      cases hg : alistGet r0.fields "用户ID" with
      | none =>
        rw [hg] at hm
        exact Or.inl hm
      | some w =>
        cases w with
        | int n =>
          rw [hg] at hm
          exact Or.inl hm
        | str u0 =>
          rw [hg] at hm
          dsimp only at hm
          by_cases h0 : u0 ≠ ""
          · rw [if_pos h0] at hm
            by_cases hu : u = u0
            · subst hu
              rw [alistGet_set_self] at hm
              injection hm with hm'
              exact Or.inr ⟨r0, List.mem_cons_self _ _, hg, hm'.symm⟩
            · rw [alistGet_set_ne hu] at hm
              exact Or.inl hm
          · rw [if_neg h0] at hm
            exact Or.inl hm
    · exact Or.inr ⟨r, List.mem_cons_of_mem _ hr, hf, hv⟩

theorem userKeyed_fold_isSome {α : Type} (f : Record → α) (recs : List Record)
    (m : List (String × α)) (u : String)
    (h : (alistGet m u).isSome = true ∨
      ∃ r ∈ recs, alistGet r.fields "用户ID" = some (FVal.str u) ∧ u ≠ "") :
    (alistGet (recs.foldl (userKeyStep f) m) u).isSome = true := by
  induction recs generalizing m with
  | nil =>
    rcases h with h | ⟨r, hr, _⟩
    · exact h
    · cases hr
  | cons r0 recs ih =>
    rw [List.foldl_cons]
    apply ih
    rcases h with h | ⟨r, hr, hf, hu⟩
    · left
      unfold userKeyStep
      cases hg : alistGet r0.fields "用户ID" with
      | none => exact h
      | some w =>
        cases w with
        | int n => exact h
        | str u0 =>
          dsimp only
          by_cases h0 : u0 ≠ ""
          · rw [if_pos h0]
            exact alistGet_set_isSome m u0 u (f r0) h
          · rw [if_neg h0]
            exact h
    · rcases List.mem_cons.mp hr with he | hr'
      · left
        unfold userKeyStep
        rw [← he, hf]
        dsimp only
        rw [if_pos hu, alistGet_set_self]
        rfl
      · exact Or.inr ⟨r, hr', hf, hu⟩

/-! ## Claim C3: the settled-cache invariant -/

/-- The invariant `load_all_students` establishes and the sync loop
maintains: every cache entry is keyed by its record's own `用户ID` value,
which is a non-blank string. -/
def cacheWellKeyed (cache : List (String × Record)) : Prop :=
  ∀ p ∈ cache, alistGet p.2.fields "用户ID" = some (FVal.str p.1) ∧ pyStrip p.1 ≠ ""

/-- A record is filled for a student: it carries the student's `用户ID` and a
truthy, non-blank value for every candidate field the import would propose. -/
def FilledFor (mapping : List (String × String)) (names : List String)
    (sd : StudentData) (r : Record) : Prop :=
  alistGet r.fields "用户ID" = some (FVal.str sd.user_id) ∧
  ∀ p ∈ (map_csv_fields_to_feishu mapping names sd.csv_all_fields).mapped,
    ∃ w, alistGet r.fields p.1 = some w ∧ pyTruthy w = true ∧ pyStrip (pyStr w) ≠ ""

/-- A student is settled in a cache: its record is present under its natural
key and filled. -/
def Settled (mapping : List (String × String)) (names : List String)
    (cache : List (String × Record)) (sd : StudentData) : Prop :=
  ∃ r, alistGet cache sd.user_id = some r ∧ FilledFor mapping names sd r

/-- No candidate field of a filled record is a safe write. -/
theorem safeUpdates_eq_nil_of_filled {new_fields existing_fields : Fields}
    {conflicts : List FieldConflict}
    (h : ∀ p ∈ new_fields, ∃ w, alistGet existing_fields p.1 = some w ∧
      pyTruthy w = true ∧ pyStrip (pyStr w) ≠ "") :
    safeUpdates new_fields existing_fields conflicts = [] := by
  unfold safeUpdates
  rw [List.filter_eq_nil_iff]
  intro p hp
  obtain ⟨w, hw, ht, hne⟩ := h p hp
  intro hc
  rw [Bool.and_eq_true] at hc
  have hemp := hc.2
  rw [hw] at hemp
  unfold isEmptyExisting at hemp
  dsimp only at hemp
  rw [ht] at hemp
  simp [hne] at hemp

/-- The update plan of a filled record has no safe writes. -/
theorem planUpdate_safe_empty {mapping : List (String × String)} {names : List String}
    {sd : StudentData} {existing : Record}
    (h : ∀ p ∈ (map_csv_fields_to_feishu mapping names sd.csv_all_fields).mapped,
      ∃ w, alistGet existing.fields p.1 = some w ∧
        pyTruthy w = true ∧ pyStrip (pyStr w) ≠ "") :
    (planUpdate mapping names sd existing).safe = [] := by
  unfold planUpdate
  by_cases h1 : sd.csv_all_fields.isEmpty
  · rw [if_pos h1]
  · rw [if_neg h1]
    dsimp only
    by_cases h2 : (map_csv_fields_to_feishu mapping names sd.csv_all_fields).mapped.isEmpty
    · rw [if_pos h2]
    · rw [if_neg h2]
      dsimp only
      exact safeUpdates_eq_nil_of_filled h

/-- `_update_student_if_needed` with no safe writes: `False` is returned and
the run state is unchanged except for the field-mapping summary and a
possible conflict warning. -/
theorem update_student_safe_empty (mapping : List (String × String)) (names : List String)
    (updOk : String → Bool) (cacheLoaded : Bool) (sd : StudentData)
    (record_id : String) (existing : Record) (s : SyncOutcome)
    (hsafe : (planUpdate mapping names sd existing).safe = []) :
    (update_student_if_needed mapping names updOk cacheLoaded sd record_id existing s).1
        = false ∧
    (update_student_if_needed mapping names updOk cacheLoaded sd record_id existing s).2.cache
        = s.cache ∧
    (update_student_if_needed mapping names updOk cacheLoaded sd record_id existing s).2.remote
        = s.remote ∧
    (update_student_if_needed mapping names updOk cacheLoaded sd record_id existing s).2.requests
        = s.requests ∧
    (update_student_if_needed mapping names updOk cacheLoaded sd record_id existing s).2.new_students
        = s.new_students ∧
    (update_student_if_needed mapping names updOk cacheLoaded sd record_id existing
        s).2.updated_students = s.updated_students := by
  unfold update_student_if_needed
  dsimp only
  rw [if_pos (by rw [List.isEmpty_iff]; exact hsafe)]
  split
  all_goals exact ⟨rfl, rfl, rfl, rfl, rfl, rfl⟩

/-- `planUpdate` in its main branch. -/
theorem planUpdate_main {mapping : List (String × String)} {names : List String}
    {sd : StudentData} {existing : Record}
    (h1 : ¬sd.csv_all_fields.isEmpty = true)
    (h2 : ¬(map_csv_fields_to_feishu mapping names sd.csv_all_fields).mapped.isEmpty = true) :
    planUpdate mapping names sd existing =
      ⟨(map_csv_fields_to_feishu mapping names sd.csv_all_fields).mapped,
       detect_conflicts (map_csv_fields_to_feishu mapping names sd.csv_all_fields).mapped
         existing.fields sd.user_id sd.nickname,
       safeUpdates (map_csv_fields_to_feishu mapping names sd.csv_all_fields).mapped
         existing.fields
         (detect_conflicts (map_csv_fields_to_feishu mapping names sd.csv_all_fields).mapped
           existing.fields sd.user_id sd.nickname),
       map_csv_fields_to_feishu mapping names sd.csv_all_fields⟩ := by
  unfold planUpdate
  rw [if_neg h1]
  dsimp only
  rw [if_neg h2]

/-- Safe updates are a subset of the candidate fields. -/
theorem planUpdate_safe_subset {mapping : List (String × String)} {names : List String}
    {sd : StudentData} {existing : Record} {p : String × FVal}
    (hp : p ∈ (planUpdate mapping names sd existing).safe) :
    p ∈ (planUpdate mapping names sd existing).new_fields := by
  unfold planUpdate at hp ⊢
  by_cases h1 : sd.csv_all_fields.isEmpty
  · rw [if_pos h1] at hp
    cases hp
  · rw [if_neg h1] at hp ⊢
    dsimp only at hp ⊢
    by_cases h2 : (map_csv_fields_to_feishu mapping names sd.csv_all_fields).mapped.isEmpty
    · rw [if_pos h2] at hp
      cases hp
    · rw [if_neg h2] at hp ⊢
      exact (List.mem_filter.mp hp).1

/-- An existing value that is not empty-like is a present, truthy, non-blank
value. -/
theorem isEmptyExisting_false_elim {ew : Option FVal}
    (h : isEmptyExisting ew = false) :
    ∃ w, ew = some w ∧ pyTruthy w = true ∧ pyStrip (pyStr w) ≠ "" := by
  cases ew with
  | none => cases h
  | some w =>
    unfold isEmptyExisting at h
    dsimp only at h
    rw [Bool.or_eq_false_iff] at h
    refine ⟨w, rfl, ?_, ?_⟩
    · have := h.1
      rw [Bool.not_eq_false'] at this
      exact this
    · intro hc
      have := h.2
      rw [hc] at this
      simp at this

/-- The second-run loop: when every remaining student resolves through the id
and record maps to a record whose update plan has no safe writes, the loop
performs no creates, no updates and no remote requests, and leaves cache,
remote table and id map untouched. -/
theorem settled_loop (mapping : List (String × String)) (names : List String)
    (createOk updOk : String → Bool) (cacheLoaded : Bool)
    (exMap : List (String × Record)) (todo : List StudentData)
    (s : SyncOutcome) (idMap : List (String × String))
    (hsd : ∀ sd ∈ todo, ∃ rid r, alistGet idMap sd.user_id = some rid ∧
      alistGet exMap sd.user_id = some r ∧ (planUpdate mapping names sd r).safe = []) :
    (todo.foldl (processStudent mapping names createOk updOk cacheLoaded exMap)
        (s, idMap)).1.new_students = s.new_students ∧
    (todo.foldl (processStudent mapping names createOk updOk cacheLoaded exMap)
        (s, idMap)).1.updated_students = s.updated_students ∧
    (todo.foldl (processStudent mapping names createOk updOk cacheLoaded exMap)
        (s, idMap)).1.requests = s.requests ∧
    (todo.foldl (processStudent mapping names createOk updOk cacheLoaded exMap)
        (s, idMap)).1.remote = s.remote ∧
    (todo.foldl (processStudent mapping names createOk updOk cacheLoaded exMap)
        (s, idMap)).1.cache = s.cache := by
  induction todo generalizing s idMap with
  | nil => exact ⟨rfl, rfl, rfl, rfl, rfl⟩
  | cons sd0 todo ih =>
    obtain ⟨rid, r, hid, hex, hplan⟩ := hsd sd0 (List.mem_cons_self sd0 todo)
    obtain ⟨hflag, hcache, hremote, hreq, hnew, hupd⟩ :=
      update_student_safe_empty mapping names updOk cacheLoaded sd0 rid r s hplan
    have hstep : processStudent mapping names createOk updOk cacheLoaded exMap
        (s, idMap) sd0 =
        ({ (update_student_if_needed mapping names updOk cacheLoaded sd0 rid r s).2 with
            processed_records :=
              (update_student_if_needed mapping names updOk cacheLoaded sd0 rid r
                s).2.processed_records + 1 },
         idMap) := by
      unfold processStudent
      dsimp only
      rw [hid, hex]
      dsimp only
      rw [hflag, if_neg (by exact Bool.false_ne_true)]
    rw [List.foldl_cons, hstep]
    obtain ⟨h1, h2, h3, h4, h5⟩ := ih
      ({ (update_student_if_needed mapping names updOk cacheLoaded sd0 rid r s).2 with
          processed_records :=
            (update_student_if_needed mapping names updOk cacheLoaded sd0 rid r
              s).2.processed_records + 1 })
      idMap
      (fun sd hm => hsd sd (List.mem_cons_of_mem sd0 hm))
    exact ⟨by rw [h1]; exact hnew, by rw [h2]; exact hupd, by rw [h3]; exact hreq,
      by rw [h4]; exact hremote, by rw [h5]; exact hcache⟩

/-! ## Claim C3: the create branch -/

theorem createBaseFields_uid (sd : StudentData) :
    alistGet (createBaseFields sd).1 "用户ID" = some (FVal.str sd.user_id) := by
  unfold createBaseFields
  dsimp only
  split
  · split
    · rw [alistGet_cons, if_pos rfl]
    · show alistGet (alistSet [("用户ID", FVal.str sd.user_id),
        ("昵称", FVal.str sd.nickname)] "手机号" (FVal.str (stripDigits sd.phone))) "用户ID"
          = some (FVal.str sd.user_id)
      rw [alistGet_set_ne (by decide : ("用户ID" : String) ≠ "手机号")]
      rw [alistGet_cons, if_pos rfl]
  · rw [alistGet_cons, if_pos rfl]

theorem buildCreateFields_uid (mapping : List (String × String)) (names : List String)
    (sd : StudentData)
    (hcoh : ∀ v, alistGet (map_csv_fields_to_feishu mapping names sd.csv_all_fields).mapped
      "用户ID" = some v → v = FVal.str sd.user_id) :
    alistGet (buildCreateFields mapping names sd).1 "用户ID"
      = some (FVal.str sd.user_id) := by
  unfold buildCreateFields
  dsimp only
  by_cases h1 : sd.csv_all_fields.isEmpty
  · rw [if_pos h1]
    exact createBaseFields_uid sd
  · rw [if_neg h1]
    dsimp only
    cases hg : alistGet (map_csv_fields_to_feishu mapping names sd.csv_all_fields).mapped
        "用户ID" with
    | none =>
      rw [alistGet_update_not_mem (alistGet_none_iff_not_mem_keys.mp hg)]
      exact createBaseFields_uid sd
    | some v =>
      have hv := hcoh v hg
      rw [alistGet_update_mem (mapCsv_mapped_keys_nodup mapping names sd.csv_all_fields)
        (alistGet_some_mem hg)]
      rw [hv]

theorem buildCreateFields_mapped_vals (mapping : List (String × String))
    (names : List String) (sd : StudentData) :
    ∀ p ∈ (map_csv_fields_to_feishu mapping names sd.csv_all_fields).mapped,
      alistGet (buildCreateFields mapping names sd).1 p.1 = some p.2 := by
  intro p hp
  unfold buildCreateFields
  dsimp only
  by_cases h1 : sd.csv_all_fields.isEmpty
  · exfalso
    rw [List.isEmpty_iff] at h1
    rw [h1] at hp
    cases hp
  · rw [if_neg h1]
    dsimp only
    exact alistGet_update_mem (mapCsv_mapped_keys_nodup mapping names sd.csv_all_fields)
      hp _

theorem create_new_student_allOk (mapping : List (String × String)) (names : List String)
    (sd : StudentData) (s : SyncOutcome) :
    (create_new_student mapping names (fun _ => true) true sd s).1
      = some ("rec" ++ toString s.nextId) ∧
    (create_new_student mapping names (fun _ => true) true sd s).2.cache
      = alistSet s.cache sd.user_id
          ⟨"rec" ++ toString s.nextId, (buildCreateFields mapping names sd).1⟩ := by
  unfold create_new_student
  dsimp only
  rw [if_pos (rfl : ((fun _ : String => true) sd.user_id) = true)]
  dsimp only
  refine ⟨rfl, ?_⟩
  rw [if_pos rfl]
  rfl

/-- Creating a new student settles it: the returned record is cached under
the natural key, carries the student's `用户ID`, and holds every candidate
value; other keys and the well-keyed invariant are preserved. -/
theorem create_branch_settles (mapping : List (String × String)) (names : List String)
    (sd : StudentData) (s : SyncOutcome)
    (hstu : pyStrip sd.user_id = sd.user_id ∧ sd.user_id ≠ "")
    (hcoh : ∀ v, alistGet (map_csv_fields_to_feishu mapping names sd.csv_all_fields).mapped
      "用户ID" = some v → v = FVal.str sd.user_id)
    (hW : cacheWellKeyed s.cache) :
    (create_new_student mapping names (fun _ => true) true sd s).1
      = some ("rec" ++ toString s.nextId) ∧
    cacheWellKeyed (create_new_student mapping names (fun _ => true) true sd s).2.cache ∧
    (∀ k, k ≠ sd.user_id →
      alistGet (create_new_student mapping names (fun _ => true) true sd s).2.cache k
        = alistGet s.cache k) ∧
    (∃ rr, alistGet (create_new_student mapping names (fun _ => true) true sd s).2.cache
        sd.user_id = some rr ∧ FilledFor mapping names sd rr) := by
  obtain ⟨hid, hcache⟩ := create_new_student_allOk mapping names sd s
  have hpstrip : pyStrip sd.user_id ≠ "" := by
    rw [hstu.1]
    exact hstu.2
  have hfilled : FilledFor mapping names sd
      ⟨"rec" ++ toString s.nextId, (buildCreateFields mapping names sd).1⟩ := by
    constructor
    · exact buildCreateFields_uid mapping names sd hcoh
    · intro p hp
      refine ⟨p.2, buildCreateFields_mapped_vals mapping names sd p hp, ?_, ?_⟩
      · exact (mapCsv_mapped_goodVal hp).1
      · exact (mapCsv_mapped_goodVal hp).2
  refine ⟨hid, ?_, ?_, ?_⟩
  · rw [hcache]
    intro q hq
    rcases mem_alistSet hq with hin | he
    · exact hW q hin
    · rw [he]
      exact ⟨hfilled.1, hpstrip⟩
  · intro k hk
    rw [hcache, alistGet_set_ne hk]
  · refine ⟨⟨"rec" ++ toString s.nextId, (buildCreateFields mapping names sd).1⟩, ?_, hfilled⟩
    rw [hcache, alistGet_set_self]

/-! ## Claim C3: the update branch -/

/-- A candidate field that failed the safe-write test has a present, truthy,
non-blank existing value (either because it conflicted or because the
existing value was non-empty). -/
theorem filled_of_not_safe_cond {mapped exf : Fields} {uid nick : String}
    {p : String × FVal} (hnc :
      ¬((!((detect_conflicts mapped exf uid nick).map
            FieldConflict.field_name).contains p.1) &&
          isEmptyExisting (alistGet exf p.1)) = true) :
    ∃ w, alistGet exf p.1 = some w ∧ pyTruthy w = true ∧ pyStrip (pyStr w) ≠ "" := by
  rw [Bool.not_eq_true] at hnc
  rcases Bool.and_eq_false_iff.mp hnc with hc | he
  · have hc' : ((detect_conflicts mapped exf uid nick).map
        FieldConflict.field_name).contains p.1 = true := by
      simpa using hc
    have hmem : p.1 ∈ (detect_conflicts mapped exf uid nick).map
        FieldConflict.field_name := List.elem_iff.mp hc'
    obtain ⟨c, hcmem, hcf⟩ := List.mem_map.mp hmem
    obtain ⟨v', _, hw, ht, hne, _⟩ := detect_conflicts_spec hcmem
    rw [hcf] at hw
    exact ⟨c.existing_value, hw, ht, hne⟩
  · exact isEmptyExisting_false_elim he

/-- Updating an existing student settles it: the cached record afterwards
carries the student's `用户ID` and a present, truthy, non-blank value for
every candidate field; other keys and the well-keyed invariant are
preserved. -/
theorem update_branch_settles (mapping : List (String × String)) (names : List String)
    (sd : StudentData) (rid : String) (r : Record) (s : SyncOutcome)
    (hcached : alistGet s.cache sd.user_id = some r)
    (hfield : alistGet r.fields "用户ID" = some (FVal.str sd.user_id))
    (hpstrip : pyStrip sd.user_id ≠ "")
    (hW : cacheWellKeyed s.cache) :
    cacheWellKeyed
      (update_student_if_needed mapping names (fun _ => true) true sd rid r s).2.cache ∧
    (∀ k, k ≠ sd.user_id →
      alistGet (update_student_if_needed mapping names (fun _ => true) true sd rid r
        s).2.cache k = alistGet s.cache k) ∧
    (∃ rr, alistGet (update_student_if_needed mapping names (fun _ => true) true sd rid r
        s).2.cache sd.user_id = some rr ∧ FilledFor mapping names sd rr) := by
  by_cases hsafe : (planUpdate mapping names sd r).safe = []
  · obtain ⟨_, hcacheEq, _⟩ :=
      update_student_safe_empty mapping names (fun _ => true) true sd rid r s hsafe
    rw [hcacheEq]
    refine ⟨hW, fun k _ => rfl, r, hcached, hfield, ?_⟩
    intro p hp
    by_cases h1 : sd.csv_all_fields.isEmpty
    · exfalso
      rw [List.isEmpty_iff] at h1
      rw [h1] at hp
      cases hp
    · by_cases h2 : (map_csv_fields_to_feishu mapping names sd.csv_all_fields).mapped.isEmpty
      · exfalso
        rw [List.isEmpty_iff] at h2
        rw [h2] at hp
        cases hp
      · have hmain := @planUpdate_main mapping names sd r h1 h2
        rw [hmain] at hsafe
        dsimp only at hsafe
        unfold safeUpdates at hsafe
        have hnc := List.filter_eq_nil_iff.mp hsafe p hp
        exact filled_of_not_safe_cond hnc
  · -- a non-empty safe set: the record is updated in place
    obtain ⟨p0, hp0⟩ := List.exists_mem_of_ne_nil _ hsafe
    obtain ⟨f0, v0⟩ := p0
    have hmain := planUpdate_of_mem (planUpdate_safe_subset hp0)
    have hcacheEq : (update_student_if_needed mapping names (fun _ => true) true sd rid r
        s).2.cache = alistSet s.cache sd.user_id
          ⟨r.record_id, alistUpdate r.fields (planUpdate mapping names sd r).safe⟩ := by
      unfold update_student_if_needed
      dsimp only
      rw [if_neg (by rw [List.isEmpty_iff]; exact hsafe)]
      rw [if_pos (rfl : ((fun _ : String => true) sd.user_id) = true)]
      dsimp only
      rw [if_pos rfl]
      unfold get_student
      have hac : (addDelta s (planUpdate mapping names sd r).delta).cache = s.cache := rfl
      rw [hac, hcached]
    have hnotuid : "用户ID" ∉ alistKeys (planUpdate mapping names sd r).safe := by
      rw [hmain]
      exact not_mem_safe_keys (isEmptyExisting_false_of_str hfield hpstrip)
    have hfield' : alistGet (alistUpdate r.fields (planUpdate mapping names sd r).safe)
        "用户ID" = some (FVal.str sd.user_id) := by
      rw [alistGet_update_not_mem hnotuid, hfield]
    have hnodupnew : (alistKeys (planUpdate mapping names sd r).new_fields).Nodup := by
      rw [hmain]
      exact mapCsv_mapped_keys_nodup mapping names sd.csv_all_fields
    have hnodupsafe : (alistKeys (planUpdate mapping names sd r).safe).Nodup := by
      rw [hmain]
      exact safe_keys_nodup (mapCsv_mapped_keys_nodup mapping names sd.csv_all_fields)
    refine ⟨?_, ?_, ?_⟩
    · rw [hcacheEq]
      intro q hq
      rcases mem_alistSet hq with hin | he
      · exact hW q hin
      · rw [he]
        exact ⟨hfield', hpstrip⟩
    · intro k hk
      rw [hcacheEq, alistGet_set_ne hk]
    · refine ⟨⟨r.record_id, alistUpdate r.fields (planUpdate mapping names sd r).safe⟩,
        ?_, hfield', ?_⟩
      · rw [hcacheEq, alistGet_set_self]
      · intro p hp
        have hpnew : p ∈ (planUpdate mapping names sd r).new_fields := by
          rw [hmain]
          exact hp
        by_cases hkey : p.1 ∈ alistKeys (planUpdate mapping names sd r).safe
        · obtain ⟨v', hv'⟩ := mem_keys_iff.mp hkey
          have hv'new : (p.1, v') ∈ (planUpdate mapping names sd r).new_fields :=
            planUpdate_safe_subset hv'
          have h1 : alistGet (planUpdate mapping names sd r).new_fields p.1 = some v' :=
            alistGet_of_mem_nodup hnodupnew hv'new
          have h2 : alistGet (planUpdate mapping names sd r).new_fields p.1 = some p.2 :=
            alistGet_of_mem_nodup hnodupnew hpnew
          have hveq : v' = p.2 := by
            rw [h1] at h2
            injection h2
          refine ⟨p.2, ?_, (mapCsv_mapped_goodVal hp).1, (mapCsv_mapped_goodVal hp).2⟩
          rw [← hveq]
          exact alistGet_update_mem hnodupsafe hv' _
        · have hpres : alistGet (alistUpdate r.fields (planUpdate mapping names sd r).safe)
              p.1 = alistGet r.fields p.1 := alistGet_update_not_mem hkey _
          rw [hpres]
          apply @filled_of_not_safe_cond
            (map_csv_fields_to_feishu mapping names sd.csv_all_fields).mapped
            r.fields sd.user_id sd.nickname p
          intro hc
          apply hkey
          rw [hmain]
          exact mem_keys_iff.mpr ⟨p.2, List.mem_filter.mpr ⟨hp, hc⟩⟩

/-! ## Claim C3: resolution through the derived maps -/

/-- In a well-keyed cache, a cached record resolves through the keyed map
built from the batch lookup of the import's ids: the map binds the record's
own natural key to `f` of that record. -/
theorem resolveUserKeyed {α : Type} (f : Record → α) (ids : List String)
    (cache : List (String × Record)) (u : String) (r : Record)
    (hW : cacheWellKeyed cache) (hmem : alistGet cache u = some r)
    (hu : u ∈ ids) (hune : u ≠ "") :
    alistGet (buildUserKeyed f (ids.filterMap (alistGet cache))) u = some (f r) := by
  have hwk := hW (u, r) (alistGet_some_mem hmem)
  have hrmem : r ∈ ids.filterMap (alistGet cache) :=
    List.mem_filterMap.mpr ⟨u, hu, hmem⟩
  have hsome : (alistGet (buildUserKeyed f (ids.filterMap (alistGet cache))) u).isSome
      = true := by
    unfold buildUserKeyed
    exact userKeyed_fold_isSome f _ [] u (Or.inr ⟨r, hrmem, hwk.1, hune⟩)
  obtain ⟨v, hv⟩ := Option.isSome_iff_exists.mp hsome
  have hv' : alistGet ((ids.filterMap (alistGet cache)).foldl (userKeyStep f) []) u
      = some v := hv
  rcases userKeyed_fold_spec f _ [] u v hv' with hbase | ⟨r', hr', hf', hveq⟩
  · cases hbase
  · obtain ⟨uid', hu', hmem'⟩ := List.mem_filterMap.mp hr'
    have hwk' := hW (uid', r') (alistGet_some_mem hmem')
    rw [hwk'.1] at hf'
    have huid : uid' = u := by
      injection hf' with h1
      injection h1
    rw [huid] at hmem'
    rw [hmem] at hmem'
    injection hmem' with h2
    rw [hv, hveq, ← h2]

/-- The update arm of `processStudent`: cache flows through
`_update_student_if_needed`, and the id map is untouched. -/
theorem processStudent_cache_update (mapping : List (String × String))
    (names : List String) (createOk updOk : String → Bool) (cacheLoaded : Bool)
    (exMap : List (String × Record)) (s : SyncOutcome)
    (idMap : List (String × String)) (sd : StudentData) (rid : String) (ex : Record)
    (hid : alistGet idMap sd.user_id = some rid)
    (hex : alistGet exMap sd.user_id = some ex) :
    (processStudent mapping names createOk updOk cacheLoaded exMap (s, idMap) sd).1.cache
      = (update_student_if_needed mapping names updOk cacheLoaded sd rid ex s).2.cache ∧
    (processStudent mapping names createOk updOk cacheLoaded exMap (s, idMap) sd).2
      = idMap := by
  unfold processStudent
  dsimp only
  rw [hid, hex]
  dsimp only
  split
  · exact ⟨rfl, rfl⟩
  · exact ⟨rfl, rfl⟩

/-- The create arm of `processStudent` with a successful creation: cache flows
through `_create_new_student`, and the id map gains the new record id. -/
theorem processStudent_cache_create (mapping : List (String × String))
    (names : List String) (updOk : String → Bool)
    (exMap : List (String × Record)) (s : SyncOutcome)
    (idMap : List (String × String)) (sd : StudentData)
    (hid : alistGet idMap sd.user_id = none) :
    (processStudent mapping names (fun _ => true) updOk true exMap (s, idMap) sd).1.cache
      = (create_new_student mapping names (fun _ => true) true sd s).2.cache ∧
    (processStudent mapping names (fun _ => true) updOk true exMap (s, idMap) sd).2
      = alistSet idMap sd.user_id ("rec" ++ toString s.nextId) := by
  obtain ⟨hrid, _⟩ := create_new_student_allOk mapping names sd s
  unfold processStudent
  dsimp only
  rw [hid]
  dsimp only
  rw [hrid]
  exact ⟨rfl, rfl⟩

/-- The first-run loop: processing students with distinct, non-blank natural
keys settles every one of them in the cache, keeps the cache well-keyed, and
touches no other key. -/
theorem run1_loop (mapping : List (String × String)) (names : List String)
    (exMap : List (String × Record)) (todo : List StudentData)
    (s : SyncOutcome) (idMap : List (String × String))
    (hnodup : (todo.map StudentData.user_id).Nodup)
    (hgood : ∀ sd ∈ todo, pyStrip sd.user_id = sd.user_id ∧ sd.user_id ≠ "")
    (hcoh : ∀ sd ∈ todo, ∀ v,
      alistGet (map_csv_fields_to_feishu mapping names sd.csv_all_fields).mapped "用户ID"
        = some v → v = FVal.str sd.user_id)
    (hW : cacheWellKeyed s.cache)
    (hmatch : ∀ sd ∈ todo, ∀ rid, alistGet idMap sd.user_id = some rid →
      ∃ r, alistGet exMap sd.user_id = some r ∧ alistGet s.cache sd.user_id = some r) :
    cacheWellKeyed
      (todo.foldl (processStudent mapping names (fun _ => true) (fun _ => true) true exMap)
        (s, idMap)).1.cache ∧
    (∀ sd ∈ todo, Settled mapping names
      (todo.foldl (processStudent mapping names (fun _ => true) (fun _ => true) true exMap)
        (s, idMap)).1.cache sd) ∧
    (∀ k, (∀ sd ∈ todo, k ≠ sd.user_id) →
      alistGet (todo.foldl
          (processStudent mapping names (fun _ => true) (fun _ => true) true exMap)
          (s, idMap)).1.cache k = alistGet s.cache k) := by
  induction todo generalizing s idMap with
  | nil => exact ⟨hW, fun sd h => absurd h (List.not_mem_nil sd), fun k _ => rfl⟩
  | cons sd0 todo ih =>
    rw [List.map_cons, List.nodup_cons] at hnodup
    have hgood0 := hgood sd0 (List.mem_cons_self sd0 todo)
    have hstrip0 : pyStrip sd0.user_id ≠ "" := by
      rw [hgood0.1]
      exact hgood0.2
    rw [List.foldl_cons]
    -- the step: either the update arm or the create arm settles `sd0`
    have hstep : ∃ p : SyncOutcome × List (String × String),
        processStudent mapping names (fun _ => true) (fun _ => true) true exMap
          (s, idMap) sd0 = p ∧
        cacheWellKeyed p.1.cache ∧
        (∀ k, k ≠ sd0.user_id → alistGet p.1.cache k = alistGet s.cache k) ∧
        (∃ rr, alistGet p.1.cache sd0.user_id = some rr ∧
          FilledFor mapping names sd0 rr) := by
      cases hid : alistGet idMap sd0.user_id with
      | some rid =>
        obtain ⟨r, hex, hcached⟩ :=
          hmatch sd0 (List.mem_cons_self sd0 todo) rid hid
        have hfield := (hW (sd0.user_id, r) (alistGet_some_mem hcached)).1
        obtain ⟨hWn, hpres, hsettled⟩ :=
          update_branch_settles mapping names sd0 rid r s hcached hfield hstrip0 hW
        obtain ⟨hcflow, hmap⟩ := processStudent_cache_update mapping names
          (fun _ => true) (fun _ => true) true exMap s idMap sd0 rid r hid hex
        refine ⟨processStudent mapping names (fun _ => true) (fun _ => true) true exMap
          (s, idMap) sd0, rfl, ?_, ?_, ?_⟩
        · rw [hcflow]
          exact hWn
        · intro k hk
          rw [hcflow]
          exact hpres k hk
        · rw [hcflow]
          exact hsettled
      | none =>
        obtain ⟨_, hWn, hpres, hsettled⟩ :=
          create_branch_settles mapping names sd0 s hgood0
            (hcoh sd0 (List.mem_cons_self sd0 todo)) hW
        obtain ⟨hcflow, hmap⟩ := processStudent_cache_create mapping names
          (fun _ => true) exMap s idMap sd0 hid
        refine ⟨processStudent mapping names (fun _ => true) (fun _ => true) true exMap
          (s, idMap) sd0, rfl, ?_, ?_, ?_⟩
        · rw [hcflow]
          exact hWn
        · intro k hk
          rw [hcflow]
          exact hpres k hk
        · rw [hcflow]
          exact hsettled
    obtain ⟨p, hpeq, hWp, hpresp, rr0, hrr0, hfill0⟩ := hstep
    rw [hpeq]
    -- the id map after the step still resolves the remaining students
    have hmatch' : ∀ sd ∈ todo, ∀ rid, alistGet p.2 sd.user_id = some rid →
        ∃ r, alistGet exMap sd.user_id = some r ∧
          alistGet p.1.cache sd.user_id = some r := by
      intro sd hsd rid hrid
      have hne : sd.user_id ≠ sd0.user_id := by
        intro hc
        apply hnodup.1
        rw [← hc]
        exact List.mem_map_of_mem StudentData.user_id hsd
      have hpget : alistGet p.2 sd.user_id = alistGet idMap sd.user_id := by
        cases hid0 : alistGet idMap sd0.user_id with
        | some rid0 =>
          obtain ⟨r0, hex0, _⟩ := hmatch sd0 (List.mem_cons_self sd0 todo) rid0 hid0
          have := (processStudent_cache_update mapping names (fun _ => true)
            (fun _ => true) true exMap s idMap sd0 rid0 r0 hid0 hex0).2
          rw [hpeq] at this
          rw [this]
        | none =>
          have := (processStudent_cache_create mapping names (fun _ => true)
            exMap s idMap sd0 hid0).2
          rw [hpeq] at this
          rw [this, alistGet_set_ne hne]
      rw [hpget] at hrid
      obtain ⟨r, hex, hcached⟩ := hmatch sd (List.mem_cons_of_mem sd0 hsd) rid hrid
      refine ⟨r, hex, ?_⟩
      rw [hpresp sd.user_id hne]
      exact hcached
    obtain ⟨hWf, hsetf, hpresf⟩ := ih p.1 p.2 hnodup.2
      (fun sd h => hgood sd (List.mem_cons_of_mem sd0 h))
      (fun sd h => hcoh sd (List.mem_cons_of_mem sd0 h))
      hWp hmatch'
    refine ⟨hWf, ?_, ?_⟩
    · intro sd hsd
      rcases List.mem_cons.mp hsd with heq | hmemtl
      · subst heq
        refine ⟨rr0, ?_, hfill0⟩
        rw [hpresf sd.user_id ?_]
        · exact hrr0
        · intro sd' hsd' hc
          apply hnodup.1
          rw [hc]
          exact List.mem_map_of_mem StudentData.user_id hsd'
      · exact hsetf sd hmemtl
    · intro k hk
      rw [hpresf k (fun sd h => hk sd (List.mem_cons_of_mem sd0 h))]
      exact hpresp k (hk sd0 (List.mem_cons_self sd0 todo))

/-- A hit in a keyed map built from a well-keyed cache comes from a cached
record under the same natural key. -/
theorem userKeyed_present {α : Type} (f : Record → α) (ids : List String)
    (cache : List (String × Record)) (u : String) (v : α)
    (hW : cacheWellKeyed cache)
    (h : alistGet (buildUserKeyed f (ids.filterMap (alistGet cache))) u = some v) :
    ∃ r, alistGet cache u = some r ∧ v = f r := by
  unfold buildUserKeyed at h
  rcases userKeyed_fold_spec f _ [] u v h with hbase | ⟨r', hr', hf', hveq⟩
  · cases hbase
  · obtain ⟨uid', hu', hmem'⟩ := List.mem_filterMap.mp hr'
    have hwk' := hW (uid', r') (alistGet_some_mem hmem')
    rw [hwk'.1] at hf'
    have huid : uid' = u := by
      injection hf' with h1
      injection h1
    rw [huid] at hmem'
    exact ⟨r', hmem', hveq⟩

/-- C3: running the sync twice with identical import data and the remote
store as the first run left it performs zero creates and zero updates on the
second run, and issues no remote requests at all: after the first run every
natural key resolves to a cached record that already carries every candidate
value, so no field qualifies as a safe write. (Hypotheses: the unique
students carry distinct, already-stripped, non-blank natural keys —
guaranteed by CSV validation and deduplication — any mapped `用户ID`
candidate value agrees with the student's key, and cached records are keyed
by their own `用户ID` field, as `load_all_students` builds them.) -/
theorem claim_C3 (mapping : List (String × String)) (names : List String)
    (students : List StudentData) (cache : List (String × Record))
    (remote : List Record)
    (hnodup : (students.map StudentData.user_id).Nodup)
    (hgood : ∀ sd ∈ students, pyStrip sd.user_id = sd.user_id ∧ sd.user_id ≠ "")
    (hcoh : ∀ sd ∈ students, ∀ v,
      alistGet (map_csv_fields_to_feishu mapping names sd.csv_all_fields).mapped "用户ID"
        = some v → v = FVal.str sd.user_id)
    (hW : cacheWellKeyed cache) :
    (sync_students mapping names (fun _ => true) (fun _ => true) true students
        (sync_students mapping names (fun _ => true) (fun _ => true) true students
          cache remote).cache
        (sync_students mapping names (fun _ => true) (fun _ => true) true students
          cache remote).remote).new_students = 0 ∧
    (sync_students mapping names (fun _ => true) (fun _ => true) true students
        (sync_students mapping names (fun _ => true) (fun _ => true) true students
          cache remote).cache
        (sync_students mapping names (fun _ => true) (fun _ => true) true students
          cache remote).remote).updated_students = 0 ∧
    (sync_students mapping names (fun _ => true) (fun _ => true) true students
        (sync_students mapping names (fun _ => true) (fun _ => true) true students
          cache remote).cache
        (sync_students mapping names (fun _ => true) (fun _ => true) true students
          cache remote).remote).requests = 0 := by
  have hids : ∀ sd ∈ students, sd.user_id ∈ students.map StudentData.user_id :=
    fun sd hsd => List.mem_map_of_mem StudentData.user_id hsd
  have hrun_eq : ∀ (c : List (String × Record)) (rem : List Record),
      sync_students mapping names (fun _ => true) (fun _ => true) true students c rem
        = (students.foldl
            (processStudent mapping names (fun _ => true) (fun _ => true) true
              (buildExMap ((students.map StudentData.user_id).filterMap (alistGet c))))
            (initSync c rem,
             buildIdMap ((students.map StudentData.user_id).filterMap
               (alistGet c)))).1 :=
    fun c rem => rfl
  have hmatch0 : ∀ sd ∈ students, ∀ rid,
      alistGet (buildIdMap ((students.map StudentData.user_id).filterMap
          (alistGet cache))) sd.user_id = some rid →
      ∃ r, alistGet (buildExMap ((students.map StudentData.user_id).filterMap
          (alistGet cache))) sd.user_id = some r ∧
        alistGet (initSync cache remote).cache sd.user_id = some r := by
    intro sd hsd rid hrid
    obtain ⟨r, hr, _⟩ := userKeyed_present Record.record_id
      (students.map StudentData.user_id) cache sd.user_id rid hW hrid
    exact ⟨r, resolveUserKeyed id (students.map StudentData.user_id) cache sd.user_id r
      hW hr (hids sd hsd) (hgood sd hsd).2, hr⟩
  obtain ⟨hW1, hset1, _⟩ := run1_loop mapping names
    (buildExMap ((students.map StudentData.user_id).filterMap (alistGet cache)))
    students (initSync cache remote)
    (buildIdMap ((students.map StudentData.user_id).filterMap (alistGet cache)))
    hnodup hgood hcoh hW hmatch0
  rw [hrun_eq cache remote]
  have hsd2 : ∀ sd ∈ students, ∃ rid r,
      alistGet (buildIdMap ((students.map StudentData.user_id).filterMap
        (alistGet (students.foldl
          (processStudent mapping names (fun _ => true) (fun _ => true) true
            (buildExMap ((students.map StudentData.user_id).filterMap (alistGet cache))))
          (initSync cache remote,
           buildIdMap ((students.map StudentData.user_id).filterMap
             (alistGet cache)))).1.cache))) sd.user_id = some rid ∧
      alistGet (buildExMap ((students.map StudentData.user_id).filterMap
        (alistGet (students.foldl
          (processStudent mapping names (fun _ => true) (fun _ => true) true
            (buildExMap ((students.map StudentData.user_id).filterMap (alistGet cache))))
          (initSync cache remote,
           buildIdMap ((students.map StudentData.user_id).filterMap
             (alistGet cache)))).1.cache))) sd.user_id = some r ∧
      (planUpdate mapping names sd r).safe = [] := by
    intro sd hsd
    obtain ⟨r, hr, hfill⟩ := hset1 sd hsd
    refine ⟨r.record_id, r, ?_, ?_, ?_⟩
    · exact resolveUserKeyed Record.record_id (students.map StudentData.user_id) _
        sd.user_id r hW1 hr (hids sd hsd) (hgood sd hsd).2
    · exact resolveUserKeyed id (students.map StudentData.user_id) _
        sd.user_id r hW1 hr (hids sd hsd) (hgood sd hsd).2
    · exact planUpdate_safe_empty hfill.2
  rw [hrun_eq]
  obtain ⟨hn, hu, hq, _, _⟩ := settled_loop mapping names (fun _ => true) (fun _ => true)
    true _ students _ _ hsd2
  exact ⟨hn, hu, hq⟩

/-- C3 witness: a single student with natural key `u1` and one mapped field;
starting from an empty cache and remote table, the second run creates
nothing, updates nothing and issues no requests. -/
theorem claim_C3_witness :
    cacheWellKeyed ([] : List (String × Record)) ∧
    (sync_students [("昵称", "昵称")] ["昵称"] (fun _ => true) (fun _ => true) true
        [⟨"u1", "Alice", "", [("昵称", "Alice")]⟩]
        (sync_students [("昵称", "昵称")] ["昵称"] (fun _ => true) (fun _ => true) true
          [⟨"u1", "Alice", "", [("昵称", "Alice")]⟩] [] []).cache
        (sync_students [("昵称", "昵称")] ["昵称"] (fun _ => true) (fun _ => true) true
          [⟨"u1", "Alice", "", [("昵称", "Alice")]⟩] [] []).remote).new_students = 0 ∧
    (sync_students [("昵称", "昵称")] ["昵称"] (fun _ => true) (fun _ => true) true
        [⟨"u1", "Alice", "", [("昵称", "Alice")]⟩]
        (sync_students [("昵称", "昵称")] ["昵称"] (fun _ => true) (fun _ => true) true
          [⟨"u1", "Alice", "", [("昵称", "Alice")]⟩] [] []).cache
        (sync_students [("昵称", "昵称")] ["昵称"] (fun _ => true) (fun _ => true) true
          [⟨"u1", "Alice", "", [("昵称", "Alice")]⟩] [] []).remote).updated_students
      = 0 :=
  ⟨fun p hp => absurd hp (List.not_mem_nil p),
   (claim_C3 [("昵称", "昵称")] ["昵称"] [⟨"u1", "Alice", "", [("昵称", "Alice")]⟩] [] []
     (by decide)
     (by
       intro sd hsd
       rcases List.mem_singleton.mp hsd with rfl
       exact ⟨by decide, by decide⟩)
     (by
       intro sd hsd v hv
       rcases List.mem_singleton.mp hsd with rfl
       exact Option.noConfusion hv)
     (fun p hp => absurd hp (List.not_mem_nil p))).1,
   (claim_C3 [("昵称", "昵称")] ["昵称"] [⟨"u1", "Alice", "", [("昵称", "Alice")]⟩] [] []
     (by decide)
     (by
       intro sd hsd
       rcases List.mem_singleton.mp hsd with rfl
       exact ⟨by decide, by decide⟩)
     (by
       intro sd hsd v hv
       rcases List.mem_singleton.mp hsd with rfl
       exact Option.noConfusion hv)
     (fun p hp => absurd hp (List.not_mem_nil p))).2.1⟩

end NvcSync
